import Mathlib

namespace WatchParty

/-- Hexadecimal digit test on a character (0-9, a-f, A-F). -/
def isHexChar (c : Char) : Bool :=
  c.isDigit || (97 ≤ c.toNat && c.toNat ≤ 102) || (65 ≤ c.toNat && c.toNat ≤ 70)

/-- Leading/trailing-whitespace removal on a character list, the semantics of
JavaScript's `id.trim()` as invoked by the server's identifier validation. -/
def trimChars (cs : List Char) : List Char :=
  ((cs.dropWhile Char.isWhitespace).reverse.dropWhile Char.isWhitespace).reverse

/-- Validity check for client-supplied identifiers (server.js `isValidObjectId`):
`mongoose.Types.ObjectId.isValid(id.trim())` accepts a 24-character hexadecimal
string or any 12-character string. A non-string input is represented by `""`. -/
def isValidObjectId (s : String) : Bool :=
  let t := trimChars s.toList
  (t.length == 24 && t.all isHexChar) || t.length == 12

/-- JavaScript `x || d` for an optional string `x` and a string default `d`:
the default is used when `x` is absent or the empty string (both falsy). -/
def jsOr (o : Option String) (d : String) : String :=
  match o with
  | some s => if s == "" then d else s
  | none => d

/-- JavaScript `x || null` for an optional string: the empty string collapses
to `null` (it is falsy). -/
def jsOrNull (o : Option String) : Option String :=
  match o with
  | some s => if s == "" then none else some s
  | none => none

/-- A document of the `User` collection as read by the handlers
(`username`, `profilePic`, `email`; `profilePic`/`email` may be absent). -/
structure UserDoc where
  id : String
  username : String
  profilePic : Option String
  email : Option String
deriving Repr, DecidableEq

/-- A participant snapshot as stored in a room's `users` array
(part_004 Room schema: `{id, username, profilePic, email}`). -/
structure UserSnap where
  id : String
  username : String
  profilePic : Option String
  email : String
deriving Repr, DecidableEq

/-- A persisted `Room` document, fields as used by server.js and declared by
the snapshot-based Room schema (part_004). -/
structure Room where
  id : String
  name : String
  admin : String
  adminName : String
  users : List UserSnap
  videoUrl : String
  serviceId : String
  isPlaying : Bool
  playbackTime : Int
deriving Repr, DecidableEq

/-- A persisted `Message` document (part_004 Message schema): room reference,
sender id, text, embedded sender document, creation timestamp. -/
structure Message where
  id : Nat
  room : String
  senderId : String
  text : String
  sender : UserDoc
  timestamp : Int
deriving Repr, DecidableEq

/-- The state visible to the socket handlers of server.js: the persisted
`Room` and `Message` collections, the `User` collection (read-only here),
and the in-process `socketToUserMap`. -/
structure ServerState where
  rooms : List Room
  messages : List Message
  userDocs : List UserDoc
  socketMap : List (String × String)
deriving Repr, DecidableEq

/-- Lookup `Map.get`: the user id mapped to a socket id. -/
def mapGet (m : List (String × String)) (k : String) : Option String :=
  (m.find? (fun p => p.1 == k)).map (fun p => p.2)

/-- Insertion `Map.set`: bind a socket id to a user id, replacing any previous binding. -/
def mapSet (m : List (String × String)) (k v : String) : List (String × String) :=
  (k, v) :: m.filter (fun p => !(p.1 == k))

/-- Removal `Map.delete`: drop the binding of a socket id. -/
def mapDelete (m : List (String × String)) (k : String) : List (String × String) :=
  m.filter (fun p => !(p.1 == k))

/-- Replace the first element satisfying `p` by its image under `f`
(the single-document semantics of `findByIdAndUpdate` on a collection). -/
def updateFirst (p : α → Bool) (f : α → α) : List α → List α
  | [] => []
  | x :: xs => if p x then f x :: xs else x :: updateFirst p f xs

/-- Remove the first element satisfying `p`
(the semantics of `findByIdAndDelete` / `deleteOne` on a collection). -/
def deleteFirst (p : α → Bool) : List α → List α
  | [] => []
  | x :: xs => if p x then xs else x :: deleteFirst p xs

/-- Lookup `Room.findById`: the first (in Mongo, unique) room with the given id. -/
def findRoom (s : ServerState) (roomId : String) : Option Room :=
  s.rooms.find? (fun r => r.id == roomId)

/-- Lookup `User.findById`. -/
def findUser (s : ServerState) (userId : String) : Option UserDoc :=
  s.userDocs.find? (fun u => u.id == userId)

/-- The payload of a `room-details` broadcast, as built by server.js
`fetchRoomDetails`. -/
structure RoomDetails where
  adminName : String
  participants : List UserSnap
  activeUsersCount : Nat
deriving Repr, DecidableEq

/-- server.js `fetchRoomDetails`: load the room, map its `users` array to the
client shape; `none` models the caught error (room absent). -/
def fetchRoomDetails (s : ServerState) (roomId : String) : Option RoomDetails :=
  match findRoom s roomId with
  | none => none
  | some r =>
    some { adminName := r.adminName
           participants := r.users.map (fun u =>
             { id := u.id, username := u.username, profilePic := u.profilePic,
               email := u.email })
           activeUsersCount := r.users.length }

/-- Participant shape of the earlier variant's `fetchRoomDetails` (part_003):
`{id, username, profilePic}` only. -/
structure ParticipantV0 where
  id : String
  username : String
  profilePic : Option String
deriving Repr, DecidableEq

/-- Payload of the earlier variant's `room-details` (part_003). -/
structure RoomDetailsV0 where
  adminName : String
  participants : List ParticipantV0
  activeUsersCount : Nat
deriving Repr, DecidableEq

/-- Destination of an emission: the requesting socket (`socket.emit`) or a
room channel (`io.to(roomId).emit`). -/
inductive Dest where
  | toCaller
  | toRoom (roomId : String)
deriving Repr, DecidableEq

/-- Outbound events of the handlers, with the payload fields each one carries
in server.js. `updateParticipantsFull` is join-room's `update-participants`
(full snapshots); `updateParticipantsIds` is the leave/disconnect form
(id strings only). -/
inductive Event where
  | roomError (msg : String)
  | roomCreated (roomId adminId : String) (users : List String) (adminName : String)
  | roomDetails (d : Option RoomDetails)
  | roomDetailsV0 (d : RoomDetailsV0)
  | roomJoined (roomId adminId videoUrl adminName : String) (users : List UserSnap)
  | updateParticipantsFull (participants : List UserSnap)
  | updateParticipantsIds (participants : List String)
  | loadVideo (url : String)
  | pauseVideo (time : Int)
  | resumeVideo (time : Int)
  | seekVideo (time : Int)
  | receiveMessage (m : Message)
  | roomDismissed
deriving Repr, DecidableEq

/-- The five `findByIdAndUpdate` shapes server.js applies to a room document. -/
inductive RoomUpdate where
  | pushUser (u : UserSnap)
  | pullUser (userId : String)
  | setVideo (videoUrl serviceId : String) (isPlaying : Bool) (playbackTime : Int)
  | setPlayState (isPlaying : Bool) (playbackTime : Int)
  | setTime (playbackTime : Int)
deriving Repr, DecidableEq

/-- Effect of a `RoomUpdate` on a room document (`$push`, `$pull`, field set). -/
def applyUpdate : RoomUpdate → Room → Room
  | .pushUser u, r => { r with users := r.users ++ [u] }
  | .pullUser uid, r => { r with users := r.users.filter (fun u => !(u.id == uid)) }
  | .setVideo url sid playing t, r =>
      { r with videoUrl := url, serviceId := sid, isPlaying := playing, playbackTime := t }
  | .setPlayState playing t, r => { r with isPlaying := playing, playbackTime := t }
  | .setTime t, r => { r with playbackTime := t }

/-- One step of a handler, in source order: a persistence call or an emission. -/
inductive Action where
  | saveRoom (r : Room)
  | updateRoom (roomId : String) (u : RoomUpdate)
  | deleteRoomById (roomId : String)
  | deleteRoomByAdmin (adminId : String)
  | deleteMessages (roomId : String)
  | saveMessage (m : Message)
  | emit (d : Dest) (e : Event)
deriving Repr, DecidableEq

/-- Update `Room.findByIdAndUpdate(roomId, u)` applied to the state. -/
def roomUpdateById (s : ServerState) (roomId : String) (u : RoomUpdate) : ServerState :=
  { s with rooms := updateFirst (fun r => r.id == roomId) (applyUpdate u) s.rooms }

/-- The snapshot pushed into a room's `users` array for a user document
(fields and `||` defaults exactly as in server.js). -/
def userSnapOf (userId : String) (u : UserDoc) : UserSnap :=
  { id := userId, username := u.username, profilePic := jsOrNull u.profilePic,
    email := jsOr u.email "No email" }

/-- One `room-error` emission to the requesting socket (the catch-all error
path of every handler). -/
def errOnly (msg : String) : List Action :=
  [.emit .toCaller (.roomError msg)]

/-- The room document built by the create-room handler (server.js lines
107-123): name from the creator and clock, the creator as admin and sole
member snapshot, empty playback state. -/
def newRoomDoc (userId userName freshId : String) (now : Int) (admin : UserDoc) : Room :=
  { id := freshId, name := userName ++ "-Room-" ++ toString now,
    admin := userId, adminName := userName,
    users := [userSnapOf userId admin],
    videoUrl := "", serviceId := "1", isPlaying := false, playbackTime := 0 }

/-- The `create-room` handler (server.js lines 80-147). `freshId` is the id
Mongo generates for the new document and `now` the value of `Date.now()`. -/
def createRoom (s : ServerState) (sid userId userName freshId : String) (now : Int) :
    ServerState × List Action :=
  if userId == "" || !isValidObjectId userId then
    (s, errOnly "Failed to create room: Invalid userId: must be a valid ObjectId")
  else if userName == "" then
    (s, errOnly "Failed to create room: Invalid userName: must be a non-empty string")
  else
    match findUser s userId with
    | none => (s, errOnly ("Failed to create room: User " ++ userId ++ " not found"))
    | some admin =>
      let cleanup :
          List Room × List Message × List Action :=
        match s.rooms.find? (fun r => r.admin == userId) with
        | none => (s.rooms, s.messages, [])
        | some er =>
          (deleteFirst (fun r => r.admin == userId) s.rooms,
           s.messages.filter (fun m => !(m.room == er.id)),
           [.deleteRoomByAdmin userId, .deleteMessages er.id])
      let room : Room := newRoomDoc userId userName freshId now admin
      let s1 : ServerState :=
        { s with rooms := cleanup.1 ++ [room], messages := cleanup.2.1,
                 socketMap := mapSet s.socketMap sid userId }
      (s1, cleanup.2.2 ++
        [.saveRoom room,
         .emit (.toRoom freshId)
           (.roomCreated freshId userId (room.users.map (fun u => u.id)) room.adminName),
         .emit (.toRoom freshId) (.roomDetails (fetchRoomDetails s1 freshId))])

/-- The membership decision of `join-room` (server.js line 178), computed from
a previously read room document: `room.users.some(u => u.id === userId)`. -/
def joinUserExists (room : Room) (userId : String) : Bool :=
  room.users.any (fun u => u.id == userId)

/-- The membership write of `join-room` (server.js lines 179-190): an
unconditional `$push`, guarded only by the `userExists` decision that was
computed from the earlier read. -/
def joinMembershipWrite (s : ServerState) (roomId userId : String) (user : UserDoc)
    (userExists : Bool) : ServerState :=
  if userExists then s
  else roomUpdateById s roomId (.pushUser (userSnapOf userId user))

/-- The `join-room` handler (server.js lines 149-218). -/
def joinRoom (s : ServerState) (sid roomId userId : String) : ServerState × List Action :=
  if !isValidObjectId userId then
    (s, errOnly "Failed to join room: Invalid userId: must be a valid ObjectId")
  else if !isValidObjectId roomId then
    (s, errOnly "Failed to join room: Invalid roomId: must be a valid ObjectId")
  else
    match findRoom s roomId with
    | none => (s, errOnly ("Room " ++ roomId ++ " does not exist"))
    | some room =>
      match findUser s userId with
      | none => (s, errOnly ("Failed to join room: User " ++ userId ++ " not found"))
      | some user =>
        let s1 : ServerState := { s with socketMap := mapSet s.socketMap sid userId }
        let userExists := joinUserExists room userId
        let s2 := joinMembershipWrite s1 roomId userId user userExists
        let pushActs : List Action :=
          if userExists then []
          else [.updateRoom roomId (.pushUser (userSnapOf userId user))]
        match findRoom s2 roomId with
        | none =>
          -- unreachable sequentially: the re-read after the push; a missing
          -- document would make the handler fault into its catch clause
          (s2, pushActs ++ errOnly "Failed to join room: room not found after update")
        | some updatedRoom =>
          let baseActs := pushActs ++
            [.emit .toCaller
               (.roomJoined roomId updatedRoom.admin updatedRoom.videoUrl
                 updatedRoom.adminName updatedRoom.users),
             .emit (.toRoom roomId) (.updateParticipantsFull updatedRoom.users)]
          match fetchRoomDetails s2 roomId with
          | some d => (s2, baseActs ++ [.emit (.toRoom roomId) (.roomDetails (some d))])
          | none =>
            (s2, baseActs ++ errOnly ("Failed to fetch room details for room " ++ roomId))

/-- The `play-video` handler (server.js lines 220-254). -/
def playVideo (s : ServerState) (roomId url adminId : String) :
    ServerState × List Action :=
  if !isValidObjectId roomId then
    (s, errOnly "Failed to play video: Invalid roomId: must be a valid ObjectId")
  else
    match findRoom s roomId with
    | none => (s, errOnly ("Failed to play video: Room " ++ roomId ++ " not found"))
    | some room =>
      if !(room.admin == adminId) then
        (s, errOnly "Only the admin can set the video")
      else
        (roomUpdateById s roomId (.setVideo url "1" false 0),
         [.updateRoom roomId (.setVideo url "1" false 0),
          .emit (.toRoom roomId) (.loadVideo url)])

/-- The `pause-video` handler (server.js lines 256-285). An unauthorized
request is logged and dropped: no emission at all. -/
def pauseVideo (s : ServerState) (roomId : String) (time : Int) (adminId : String) :
    ServerState × List Action :=
  if !isValidObjectId roomId then
    (s, errOnly "Failed to pause video: Invalid roomId: must be a valid ObjectId")
  else
    match findRoom s roomId with
    | none => (s, errOnly ("Failed to pause video: Room " ++ roomId ++ " not found"))
    | some room =>
      if !(room.admin == adminId) then
        (s, [])
      else
        (roomUpdateById s roomId (.setPlayState false time),
         [.updateRoom roomId (.setPlayState false time),
          .emit (.toRoom roomId) (.pauseVideo time)])

/-- The `resume-video` handler (server.js lines 287-316). An unauthorized
request is logged and dropped: no emission at all. -/
def resumeVideo (s : ServerState) (roomId : String) (time : Int) (adminId : String) :
    ServerState × List Action :=
  if !isValidObjectId roomId then
    (s, errOnly "Failed to resume video: Invalid roomId: must be a valid ObjectId")
  else
    match findRoom s roomId with
    | none => (s, errOnly ("Failed to resume video: Room " ++ roomId ++ " not found"))
    | some room =>
      if !(room.admin == adminId) then
        (s, [])
      else
        (roomUpdateById s roomId (.setPlayState true time),
         [.updateRoom roomId (.setPlayState true time),
          .emit (.toRoom roomId) (.resumeVideo time)])

/-- The `seek-video` handler (server.js lines 318-346). An unauthorized
request is logged and dropped: no emission at all. Only `playbackTime` is
written. -/
def seekVideo (s : ServerState) (roomId : String) (time : Int) (adminId : String) :
    ServerState × List Action :=
  if !isValidObjectId roomId then
    (s, errOnly "Failed to seek video: Invalid roomId: must be a valid ObjectId")
  else
    match findRoom s roomId with
    | none => (s, errOnly ("Failed to seek video: Room " ++ roomId ++ " not found"))
    | some room =>
      if !(room.admin == adminId) then
        (s, [])
      else
        (roomUpdateById s roomId (.setTime time),
         [.updateRoom roomId (.setTime time),
          .emit (.toRoom roomId) (.seekVideo time)])

/-- The message document built by the send-message handler (server.js lines
369-374): room reference, sender id, text, the sender's full user document
embedded, and the generated id and timestamp. -/
def msgDoc (roomId msgUserId msgText : String) (freshMsgId : Nat) (now : Int)
    (u : UserDoc) : Message :=
  { id := freshMsgId, room := roomId, senderId := msgUserId,
    text := msgText, sender := u, timestamp := now }

/-- The `send-message` handler (server.js lines 348-381). `freshMsgId`/`now`
are the id and timestamp Mongo generates at save time. The `text = ""` branch
models the Message schema's `required: true` validator on `text` (part_004),
which rejects the empty string when `newMessage.save()` runs. -/
def sendMessage (s : ServerState) (roomId msgUserId msgText : String)
    (freshMsgId : Nat) (now : Int) : ServerState × List Action :=
  if !isValidObjectId msgUserId then
    (s, errOnly "Failed to send message: Invalid userId: must be a valid ObjectId")
  else if !isValidObjectId roomId then
    (s, errOnly "Failed to send message: Invalid roomId: must be a valid ObjectId")
  else
    match findUser s msgUserId with
    | none => (s, errOnly ("Failed to send message: User " ++ msgUserId ++ " not found"))
    | some user =>
      match findRoom s roomId with
      | none => (s, errOnly ("Failed to send message: Room " ++ roomId ++ " not found"))
      | some _ =>
        if msgText == "" then
          (s, errOnly "Failed to send message: Message validation failed: text is required")
        else
          let m : Message := msgDoc roomId msgUserId msgText freshMsgId now user
          ({ s with messages := s.messages ++ [m] },
           [.saveMessage m, .emit (.toRoom roomId) (.receiveMessage m)])

/-- The `leave-room` handler (server.js lines 383-446). -/
def leaveRoom (s : ServerState) (sid roomId userId : String) :
    ServerState × List Action :=
  if !isValidObjectId userId then
    (s, errOnly "Failed to leave room: Invalid userId: must be a valid ObjectId")
  else if !isValidObjectId roomId then
    (s, errOnly "Failed to leave room: Invalid roomId: must be a valid ObjectId")
  else
    match findRoom s roomId with
    | none => (s, [])
    | some room =>
      if room.admin == userId then
        ({ s with rooms := deleteFirst (fun r => r.id == roomId) s.rooms,
                  messages := s.messages.filter (fun m => !(m.room == roomId)) },
         [.emit (.toRoom roomId) .roomDismissed,
          .deleteRoomById roomId, .deleteMessages roomId])
      else
        let s1 := roomUpdateById s roomId (.pullUser userId)
        match findRoom s1 roomId with
        | none => (s1, [.updateRoom roomId (.pullUser userId)])
        | some updatedRoom =>
          if updatedRoom.users.length == 0 then
            ({ s1 with rooms := deleteFirst (fun r => r.id == roomId) s1.rooms,
                       messages := s1.messages.filter (fun m => !(m.room == roomId)) },
             [.updateRoom roomId (.pullUser userId),
              .deleteRoomById roomId, .deleteMessages roomId])
          else
            let acts : List Action :=
              [.updateRoom roomId (.pullUser userId),
               .emit (.toRoom roomId)
                 (.updateParticipantsIds (updatedRoom.users.map (fun u => u.id)))]
            match fetchRoomDetails s1 roomId with
            | some d => (s1, acts ++ [.emit (.toRoom roomId) (.roomDetails (some d))])
            | none => (s1, acts)

/-- One iteration of the disconnect loop (server.js lines 461-501), for one
room of the snapshot list `Room.find({"users.id": userId})`. -/
def disconnectRoomStep (userId : String) (acc : ServerState × List Action)
    (room : Room) : ServerState × List Action :=
  let s := acc.1
  let roomId := room.id
  if room.admin == userId then
    ({ s with rooms := deleteFirst (fun r => r.id == roomId) s.rooms,
              messages := s.messages.filter (fun m => !(m.room == roomId)) },
     acc.2 ++ [.emit (.toRoom roomId) .roomDismissed,
               .deleteRoomById roomId, .deleteMessages roomId])
  else
    let s1 := roomUpdateById s roomId (.pullUser userId)
    match findRoom s1 roomId with
    | none => (s1, acc.2 ++ [.updateRoom roomId (.pullUser userId)])
    | some updatedRoom =>
      if updatedRoom.users.length == 0 then
        ({ s1 with rooms := deleteFirst (fun r => r.id == roomId) s1.rooms,
                   messages := s1.messages.filter (fun m => !(m.room == roomId)) },
         acc.2 ++ [.updateRoom roomId (.pullUser userId),
                   .deleteRoomById roomId, .deleteMessages roomId])
      else
        let acts : List Action :=
          [.updateRoom roomId (.pullUser userId),
           .emit (.toRoom roomId)
             (.updateParticipantsIds (updatedRoom.users.map (fun u => u.id)))]
        match fetchRoomDetails s1 roomId with
        | some d => (s1, acc.2 ++ acts ++ [.emit (.toRoom roomId) (.roomDetails (some d))])
        | none => (s1, acc.2 ++ acts)

/-- The `disconnect` handler (server.js lines 448-502): resolve the user from
the socket map, drop the mapping, then apply the leave logic to every room
whose `users` array contains the user. -/
def disconnect (s : ServerState) (sid : String) : ServerState × List Action :=
  match mapGet s.socketMap sid with
  | none => (s, [])
  | some userId =>
    let s0 : ServerState := { s with socketMap := mapDelete s.socketMap sid }
    let userRooms := s0.rooms.filter (fun r => r.users.any (fun u => u.id == userId))
    userRooms.foldl (disconnectRoomStep userId) (s0, [])

/-- The socket event names for which server.js registers a handler
(the `socket.on` calls of the connection block, lines 80-540). -/
def serverHandledEvents : List String :=
  ["create-room", "join-room", "play-video", "pause-video", "resume-video",
   "seek-video", "send-message", "leave-room", "disconnect", "join-voice",
   "leave-voice", "voice-offer", "voice-answer", "voice-candidate",
   "mic-enabled", "mic-disabled"]

/-- In-memory room entry of the earlier variant (part_003 `rooms[roomId]`). -/
structure RoomV0 where
  admin : String
  videoUrl : String
  serviceId : String
  participants : List String
deriving Repr, DecidableEq

/-- State of the earlier variant (part_003): the in-memory `rooms` table plus
the persisted Room and User collections. -/
structure ServerStateV0 where
  roomsTable : List (String × RoomV0)
  dbRooms : List Room
  userDocs : List UserDoc
deriving Repr, DecidableEq

/-- Table lookup `rooms[roomId]` of the earlier variant. -/
def tableGet (t : List (String × RoomV0)) (roomId : String) : Option RoomV0 :=
  (t.find? (fun p => p.1 == roomId)).map (fun p => p.2)

/-- Whether mongoose can cast a raw string to an ObjectId — the cast that runs
inside `findById` on the untrimmed value: a 24-character hexadecimal string or
any 12-character string. A value that fails this cast makes `findById` reject
with a CastError instead of resolving to null. -/
def castsToObjectId (s : String) : Bool :=
  (s.toList.length == 24 && s.toList.all isHexChar) || s.toList.length == 12

/-- Earlier variant's `fetchRoomDetails` (part_003 lines 80-106): load the DB
room for `adminName` — a malformed `roomId` makes `Room.findById` reject with
a CastError — then resolve each in-memory participant id via `User.findById`
with `|| "Unknown User"` / `|| null` defaults; a malformed participant id
(reachable, since part_003's join-room pushes the raw payload `userId`
unvalidated) likewise makes its `User.findById` reject with a CastError.
Every rejection, and an absent DB room or table entry, lands in the catch
clause, which returns null (`none`). -/
def fetchRoomDetailsV0 (s : ServerStateV0) (roomId : String) : Option RoomDetailsV0 :=
  if !castsToObjectId roomId then none
  else
    match s.dbRooms.find? (fun r => r.id == roomId) with
    | none => none
    | some room =>
      match tableGet s.roomsTable roomId with
      | none => none
      | some entry =>
        if !(entry.participants.all castsToObjectId) then none
        else
          some { adminName := room.adminName
                 participants := entry.participants.map (fun pid =>
                   match s.userDocs.find? (fun u => u.id == pid) with
                   | some u =>
                     { id := pid, username := jsOr (some u.username) "Unknown User",
                       profilePic := jsOrNull u.profilePic }
                   | none => { id := pid, username := "Unknown User",
                               profilePic := none })
                 activeUsersCount := entry.participants.length }

/-- The `get-room-details` handler of the earlier variant (part_003 lines
190-202). The current server.js registers no handler for this event. -/
def getRoomDetailsV0 (s : ServerStateV0) (roomId : String) : List Action :=
  if roomId == "" || (tableGet s.roomsTable roomId).isNone then
    [.emit .toCaller (.roomError "Room does not exist.")]
  else
    match fetchRoomDetailsV0 s roomId with
    | some d => [.emit .toCaller (.roomDetailsV0 d)]
    | none => [.emit .toCaller (.roomError "Failed to fetch room details.")]

/-- The socket operations of server.js, as a single type so that invariants
can be stated over every handler at once. Generated identifiers and clock
reads are explicit arguments. -/
inductive Op where
  | create (sid userId userName freshId : String) (now : Int)
  | join (sid roomId userId : String)
  | leave (sid roomId userId : String)
  | disc (sid : String)
  | play (roomId url adminId : String)
  | pause (roomId : String) (time : Int) (adminId : String)
  | resume (roomId : String) (time : Int) (adminId : String)
  | seek (roomId : String) (time : Int) (adminId : String)
  | send (roomId userId text : String) (freshMsgId : Nat) (now : Int)
deriving Repr

/-- Dispatch an operation to its handler. -/
def applyOp (s : ServerState) : Op → ServerState × List Action
  | .create sid userId userName freshId now => createRoom s sid userId userName freshId now
  | .join sid roomId userId => joinRoom s sid roomId userId
  | .leave sid roomId userId => leaveRoom s sid roomId userId
  | .disc sid => disconnect s sid
  | .play roomId url adminId => playVideo s roomId url adminId
  | .pause roomId time adminId => pauseVideo s roomId time adminId
  | .resume roomId time adminId => resumeVideo s roomId time adminId
  | .seek roomId time adminId => seekVideo s roomId time adminId
  | .send roomId userId text freshMsgId now => sendMessage s roomId userId text freshMsgId now

/-- Freshness of a generated room id: Mongo never hands out an `_id` already
present in the collection. Only `create-room` generates one. -/
def opFresh (s : ServerState) : Op → Prop
  | .create _ _ _ freshId _ => freshId ∉ s.rooms.map (fun r => r.id)
  | _ => True

/-- The users-array length of the room a given id resolves to. -/
def usersCount (s : ServerState) (roomId : String) : Option Nat :=
  (findRoom s roomId).map (fun r => r.users.length)

/-- The room invariant of the spec: the admin id occurs in the users array. -/
def adminPresent (r : Room) : Prop :=
  r.admin ∈ r.users.map (fun u => u.id)

/-- The failure condition of the send-message handler: a malformed id, a
missing sender or room, or empty text (rejected by the Message schema's
`required` validator at save time). -/
def sendMessageFails (s : ServerState) (roomId msgUserId msgText : String) : Prop :=
  isValidObjectId msgUserId = false ∨ isValidObjectId roomId = false ∨
  findUser s msgUserId = none ∨ findRoom s roomId = none ∨ msgText = ""

/-- Fold invariant for the disconnect loop, relative to the store `sOrig` the
loop's snapshot was taken from: every room satisfies the admin-membership
invariant, room ids stay duplicate-free, and each room's id and admin agree
with some room of `sOrig` (the loop never changes an id or an admin). -/
def DiscInv (sOrig : ServerState) (acc : ServerState × List Action) : Prop :=
  (∀ r ∈ acc.1.rooms, adminPresent r) ∧
  ((acc.1.rooms.map (fun r => r.id)).Nodup) ∧
  (∀ r ∈ acc.1.rooms, ∃ r0 ∈ sOrig.rooms, r.id = r0.id ∧ r.admin = r0.admin)

/- Concrete data for witnesses. All identifiers are 12-character strings,
hence valid ObjectIds. -/

def wAdminDoc : UserDoc :=
  { id := "adminAdmin00", username := "Alice", profilePic := none, email := some "a@x.io" }

def wUserDoc : UserDoc :=
  { id := "userBuserB00", username := "Bob", profilePic := none, email := none }

def wAdminSnap : UserSnap := userSnapOf "adminAdmin00" wAdminDoc

def wUserSnap : UserSnap := userSnapOf "userBuserB00" wUserDoc

/-- A room administered by Alice with Bob as second member. -/
def wRoom : Room :=
  { id := "roomRoomRo00", name := "Alice-Room-1", admin := "adminAdmin00",
    adminName := "Alice", users := [wAdminSnap, wUserSnap],
    videoUrl := "", serviceId := "1", isPlaying := false, playbackTime := 0 }

/-- A room administered by Alice with Alice as the only member. -/
def wRoomSolo : Room :=
  { id := "roomRoomRo00", name := "Alice-Room-1", admin := "adminAdmin00",
    adminName := "Alice", users := [wAdminSnap],
    videoUrl := "", serviceId := "1", isPlaying := false, playbackTime := 0 }

def wMessage : Message :=
  { id := 1, room := "roomRoomRo00", senderId := "userBuserB00", text := "hi",
    sender := wUserDoc, timestamp := 5 }

/-- Witness state: one two-member room, one message, both users connected. -/
def wState : ServerState :=
  { rooms := [wRoom], messages := [wMessage], userDocs := [wAdminDoc, wUserDoc],
    socketMap := [("sock1", "adminAdmin00"), ("sock2", "userBuserB00")] }

/-- Witness state whose room does not yet contain Bob. -/
def wStateSolo : ServerState :=
  { rooms := [wRoomSolo], messages := [], userDocs := [wAdminDoc, wUserDoc],
    socketMap := [] }

/-- Earlier-variant witness state for the get-room-details handler. -/
def wStateV0 : ServerStateV0 :=
  { roomsTable := [("roomRoomRo00",
      { admin := "adminAdmin00", videoUrl := "", serviceId := "1",
        participants := ["adminAdmin00"] })],
    dbRooms := [wRoomSolo], userDocs := [wAdminDoc, wUserDoc] }

/-- Earlier-variant witness state whose in-memory participant list holds a
malformed id, as part_003's join-room can produce (it pushes the raw payload
`userId` without validation). -/
def wStateV0bad : ServerStateV0 :=
  { roomsTable := [("roomRoomRo00",
      { admin := "adminAdmin00", videoUrl := "", serviceId := "1",
        participants := ["bad"] })],
    dbRooms := [wRoomSolo], userDocs := [wAdminDoc, wUserDoc] }

/- Generic lemmas about the single-document list operations. -/

theorem foldl_inv {α β : Type _} (f : β → α → β) (P : β → Prop) :
    ∀ (l : List α) (b : β), P b → (∀ b a, a ∈ l → P b → P (f b a)) →
      P (l.foldl f b)
  | [], _, hb, _ => hb
  | a :: l, b, hb, hf => by
    simp only [List.foldl_cons]
    exact foldl_inv f P l (f b a) (hf b a (List.mem_cons_self a l) hb)
      (fun b' a' ha' hb' => hf b' a' (List.mem_cons_of_mem _ ha') hb')

theorem find?_decomp {α : Type _} {p : α → Bool} :
    ∀ {l : List α} {a : α}, l.find? p = some a →
      ∃ l1 l2, l = l1 ++ a :: l2 ∧ (∀ x ∈ l1, p x = false) ∧ p a = true := by
  intro l
  induction l with
  | nil => intro a h; simp [List.find?] at h
  | cons x xs ih =>
    intro a h
    cases hx : p x with
    | true =>
      rw [List.find?_cons_of_pos _ hx] at h
      cases h
      exact ⟨[], xs, rfl, fun y hy => absurd hy (List.not_mem_nil y), hx⟩
    | false =>
      rw [List.find?_cons_of_neg _ (by simp [hx])] at h
      obtain ⟨l1, l2, rfl, h1, h2⟩ := ih h
      refine ⟨x :: l1, l2, rfl, ?_, h2⟩
      intro y hy
      rcases List.mem_cons.1 hy with rfl | hy'
      · exact hx
      · exact h1 y hy'

theorem find?_append_cons {α : Type _} {p : α → Bool} {b : α} :
    ∀ {l1 : List α} (l2 : List α), (∀ x ∈ l1, p x = false) → p b = true →
      (l1 ++ b :: l2).find? p = some b := by
  intro l1
  induction l1 with
  | nil => intro l2 _ hb; simp [List.find?_cons_of_pos _ hb]
  | cons x xs ih =>
    intro l2 h hb
    have hx : p x = false := h x (List.mem_cons_self x xs)
    rw [List.cons_append, List.find?_cons_of_neg _ (by simp [hx])]
    exact ih l2 (fun y hy => h y (List.mem_cons_of_mem _ hy)) hb

theorem updateFirst_append_cons {α : Type _} {p : α → Bool} {f : α → α} {b : α} :
    ∀ {l1 : List α} (l2 : List α), (∀ x ∈ l1, p x = false) → p b = true →
      updateFirst p f (l1 ++ b :: l2) = l1 ++ f b :: l2 := by
  intro l1
  induction l1 with
  | nil => intro l2 _ hb; simp [updateFirst, hb]
  | cons x xs ih =>
    intro l2 h hb
    have hx : ¬(p x = true) := by simp [h x (List.mem_cons_self x xs)]
    simp only [List.cons_append, updateFirst, if_neg hx, List.append_eq]
    rw [ih l2 (fun y hy => h y (List.mem_cons_of_mem _ hy)) hb]

theorem deleteFirst_append_cons {α : Type _} {p : α → Bool} {b : α} :
    ∀ {l1 : List α} (l2 : List α), (∀ x ∈ l1, p x = false) → p b = true →
      deleteFirst p (l1 ++ b :: l2) = l1 ++ l2 := by
  intro l1
  induction l1 with
  | nil => intro l2 _ hb; simp [deleteFirst, hb]
  | cons x xs ih =>
    intro l2 h hb
    have hx : ¬(p x = true) := by simp [h x (List.mem_cons_self x xs)]
    simp only [List.cons_append, deleteFirst, if_neg hx, List.append_eq]
    rw [ih l2 (fun y hy => h y (List.mem_cons_of_mem _ hy)) hb]

theorem mem_updateFirst {α : Type _} {p : α → Bool} {f : α → α} :
    ∀ {l : List α} {x : α}, x ∈ updateFirst p f l →
      x ∈ l ∨ ∃ a, a ∈ l ∧ p a = true ∧ x = f a := by
  intro l
  induction l with
  | nil => intro x h; simp [updateFirst] at h
  | cons y ys ih =>
    intro x h
    cases hy : p y with
    | true =>
      simp only [updateFirst, hy, if_true] at h
      rcases List.mem_cons.1 h with rfl | h'
      · exact Or.inr ⟨y, List.mem_cons_self y ys, hy, rfl⟩
      · exact Or.inl (List.mem_cons_of_mem _ h')
    | false =>
      simp only [updateFirst, hy, if_false] at h
      rcases List.mem_cons.1 h with rfl | h'
      · exact Or.inl (List.mem_cons_self x ys)
      · rcases ih h' with h'' | ⟨a, ha, hpa, hfa⟩
        · exact Or.inl (List.mem_cons_of_mem _ h'')
        · exact Or.inr ⟨a, List.mem_cons_of_mem _ ha, hpa, hfa⟩

theorem map_updateFirst {α β : Type _} {p : α → Bool} {f : α → α} {g : α → β}
    (hg : ∀ a, g (f a) = g a) :
    ∀ (l : List α), (updateFirst p f l).map g = l.map g := by
  intro l
  induction l with
  | nil => rfl
  | cons y ys ih =>
    cases hy : p y with
    | true => simp [updateFirst, hy, hg]
    | false => simp [updateFirst, hy, ih]

theorem deleteFirst_sublist {α : Type _} (p : α → Bool) :
    ∀ (l : List α), List.Sublist (deleteFirst p l) l := by
  intro l
  induction l with
  | nil => exact List.Sublist.refl _
  | cons y ys ih =>
    cases hy : p y with
    | true => simp only [deleteFirst, hy, if_true]; exact List.sublist_cons_self y ys
    | false => simp only [deleteFirst, hy, if_false]; exact ih.cons₂ y

theorem countP_updateFirst {α : Type _} {p q : α → Bool} {f : α → α}
    (hq : ∀ a, q (f a) = q a) :
    ∀ (l : List α), (updateFirst p f l).countP q = l.countP q := by
  intro l
  induction l with
  | nil => rfl
  | cons y ys ih =>
    cases hy : p y with
    | true => simp [updateFirst, hy, List.countP_cons, hq]
    | false => simp [updateFirst, hy, List.countP_cons, ih]

theorem countP_deleteFirst_other {α : Type _} {p q : α → Bool}
    (hpq : ∀ a, p a = true → q a = false) :
    ∀ (l : List α), (deleteFirst p l).countP q = l.countP q := by
  intro l
  induction l with
  | nil => rfl
  | cons y ys ih =>
    cases hy : p y with
    | true => simp [deleteFirst, hy, List.countP_cons, hpq y hy]
    | false => simp [deleteFirst, hy, List.countP_cons, ih]

theorem countP_deleteFirst_self {α : Type _} (p : α → Bool) :
    ∀ (l : List α), (deleteFirst p l).countP p = l.countP p - 1 := by
  intro l
  induction l with
  | nil => rfl
  | cons y ys ih =>
    cases hy : p y with
    | true => simp [deleteFirst, hy, List.countP_cons]
    | false => simp [deleteFirst, hy, List.countP_cons, ih]

/- Lemmas about the room update operation. -/

theorem applyUpdate_id (u : RoomUpdate) (r : Room) : (applyUpdate u r).id = r.id := by
  cases u <;> rfl

theorem applyUpdate_admin (u : RoomUpdate) (r : Room) :
    (applyUpdate u r).admin = r.admin := by
  cases u <;> rfl

theorem findRoom_roomUpdateById (s : ServerState) (roomId : String) (u : RoomUpdate)
    (r : Room) (hfind : findRoom s roomId = some r) :
    findRoom (roomUpdateById s roomId u) roomId = some (applyUpdate u r) := by
  obtain ⟨l1, l2, hl, h1, h2⟩ := find?_decomp hfind
  show (updateFirst (fun x => x.id == roomId) (applyUpdate u) s.rooms).find?
    (fun x => x.id == roomId) = _
  rw [hl, updateFirst_append_cons l2 h1 h2]
  exact find?_append_cons l2 h1 (by rw [applyUpdate_id]; exact h2)

/-- C1 counterexample. The claim requires every unauthorized playback-control
event to emit `room-error` to the caller. At this concrete input the room
exists, the requester is not the admin, and `pause-video` leaves the state
unchanged while emitting nothing at all — no `room-error` reaches the
caller, so the claim fails for `pause-video` (and likewise for
`resume-video` and `seek-video`). -/
theorem pauseVideo_unauthorized_silent_cex :
    findRoom wState "roomRoomRo00" = some wRoom ∧
    wRoom.admin ≠ "userBuserB00" ∧
    pauseVideo wState "roomRoomRo00" 42 "userBuserB00" = (wState, []) := by
  refine ⟨by decide, by decide, by decide⟩

/-- C1 (amended): for every playback-control event on an existing room whose
persisted admin differs from the supplied `adminId`, the handler leaves the
state unchanged and broadcasts nothing to the room; `play-video` emits a
`room-error` to the requesting connection only, while `pause-video`,
`resume-video` and `seek-video` emit nothing at all. -/
theorem playbackControls_unauthorized_amended (s : ServerState)
    (roomId url adminId : String) (time : Int) (r : Room)
    (hv : isValidObjectId roomId = true)
    (hfind : findRoom s roomId = some r)
    (hadmin : r.admin ≠ adminId) :
    playVideo s roomId url adminId =
      (s, [.emit .toCaller (.roomError "Only the admin can set the video")]) ∧
    pauseVideo s roomId time adminId = (s, []) ∧
    resumeVideo s roomId time adminId = (s, []) ∧
    seekVideo s roomId time adminId = (s, []) := by
  have hne : (r.admin == adminId) = false := by
    simp only [beq_eq_false_iff_ne, ne_eq]; exact hadmin
  refine ⟨?_, ?_, ?_, ?_⟩ <;>
    simp [playVideo, pauseVideo, resumeVideo, seekVideo, hv, hfind, hne, errOnly]

theorem playbackControls_unauthorized_amended_witness :
    isValidObjectId "roomRoomRo00" = true ∧
    findRoom wState "roomRoomRo00" = some wRoom ∧
    wRoom.admin ≠ "userBuserB00" ∧
    (playVideo wState "roomRoomRo00" "http://v" "userBuserB00" =
       (wState, [.emit .toCaller (.roomError "Only the admin can set the video")]) ∧
     pauseVideo wState "roomRoomRo00" 7 "userBuserB00" = (wState, []) ∧
     resumeVideo wState "roomRoomRo00" 7 "userBuserB00" = (wState, []) ∧
     seekVideo wState "roomRoomRo00" 7 "userBuserB00" = (wState, [])) :=
  ⟨by decide, by decide, by decide,
   playbackControls_unauthorized_amended wState "roomRoomRo00" "http://v" "userBuserB00"
     7 wRoom (by decide) (by decide) (by decide)⟩

/-- C6: an accepted `play-video` event (room exists, requester is the admin)
persists `videoUrl = url`, `serviceId = "1"`, `isPlaying = false`,
`playbackTime = 0` on the room document, and the `load-video` broadcast to
the room channel carrying the url appears in the trace strictly after that
persistence step. -/
theorem playVideo_persist_then_broadcast (s : ServerState)
    (roomId url adminId : String) (r : Room)
    (hv : isValidObjectId roomId = true)
    (hfind : findRoom s roomId = some r)
    (hadmin : r.admin = adminId) :
    playVideo s roomId url adminId =
      (roomUpdateById s roomId (.setVideo url "1" false 0),
       [.updateRoom roomId (.setVideo url "1" false 0),
        .emit (.toRoom roomId) (.loadVideo url)]) ∧
    findRoom (playVideo s roomId url adminId).1 roomId =
      some { r with videoUrl := url, serviceId := "1",
                    isPlaying := false, playbackTime := 0 } := by
  have heq : (r.admin == adminId) = true := by
    simp only [beq_iff_eq]; exact hadmin
  have h1 : playVideo s roomId url adminId =
      (roomUpdateById s roomId (.setVideo url "1" false 0),
       [.updateRoom roomId (.setVideo url "1" false 0),
        .emit (.toRoom roomId) (.loadVideo url)]) := by
    simp [playVideo, hv, hfind, heq]
  refine ⟨h1, ?_⟩
  rw [h1]
  exact findRoom_roomUpdateById s roomId _ r hfind

theorem playVideo_persist_then_broadcast_witness :
    isValidObjectId "roomRoomRo00" = true ∧
    findRoom wState "roomRoomRo00" = some wRoom ∧
    wRoom.admin = "adminAdmin00" ∧
    (playVideo wState "roomRoomRo00" "http://v" "adminAdmin00" =
       (roomUpdateById wState "roomRoomRo00" (.setVideo "http://v" "1" false 0),
        [.updateRoom "roomRoomRo00" (.setVideo "http://v" "1" false 0),
         .emit (.toRoom "roomRoomRo00") (.loadVideo "http://v")]) ∧
     findRoom (playVideo wState "roomRoomRo00" "http://v" "adminAdmin00").1
         "roomRoomRo00" =
       some { wRoom with videoUrl := "http://v", serviceId := "1",
                         isPlaying := false, playbackTime := 0 }) :=
  ⟨by decide, by decide, by decide,
   playVideo_persist_then_broadcast wState "roomRoomRo00" "http://v" "adminAdmin00"
     wRoom (by decide) (by decide) (by decide)⟩

/-- C10: an accepted `seek-video` event updates only the room's
`playbackTime`; the rooms list is the original one with just that single
field rewritten on the target room, and `videoUrl`, `serviceId`,
`isPlaying`, `admin`, `adminName` and `users` of that room, all other
rooms, and the message/user/socket state are untouched. -/
theorem seekVideo_frame (s : ServerState) (roomId : String) (time : Int)
    (adminId : String) (r : Room)
    (hv : isValidObjectId roomId = true)
    (hfind : findRoom s roomId = some r)
    (hadmin : r.admin = adminId) :
    (seekVideo s roomId time adminId).1.rooms =
      updateFirst (fun x => x.id == roomId)
        (fun x => { x with playbackTime := time }) s.rooms ∧
    (seekVideo s roomId time adminId).1.messages = s.messages ∧
    (seekVideo s roomId time adminId).1.userDocs = s.userDocs ∧
    (seekVideo s roomId time adminId).1.socketMap = s.socketMap ∧
    ∃ r', findRoom (seekVideo s roomId time adminId).1 roomId = some r' ∧
      r'.playbackTime = time ∧ r'.videoUrl = r.videoUrl ∧
      r'.serviceId = r.serviceId ∧ r'.isPlaying = r.isPlaying ∧
      r'.admin = r.admin ∧ r'.adminName = r.adminName ∧ r'.users = r.users := by
  have heq : (r.admin == adminId) = true := by
    simp only [beq_iff_eq]; exact hadmin
  have h1 : seekVideo s roomId time adminId =
      (roomUpdateById s roomId (.setTime time),
       [.updateRoom roomId (.setTime time),
        .emit (.toRoom roomId) (.seekVideo time)]) := by
    simp [seekVideo, hv, hfind, heq]
  rw [h1]
  refine ⟨rfl, rfl, rfl, rfl, applyUpdate (.setTime time) r, ?_, rfl, rfl, rfl, rfl, rfl, rfl, rfl⟩
  exact findRoom_roomUpdateById s roomId _ r hfind

theorem seekVideo_frame_witness :
    isValidObjectId "roomRoomRo00" = true ∧
    findRoom wState "roomRoomRo00" = some wRoom ∧
    wRoom.admin = "adminAdmin00" ∧
    ((seekVideo wState "roomRoomRo00" 99 "adminAdmin00").1.rooms =
       updateFirst (fun x => x.id == "roomRoomRo00")
         (fun x => { x with playbackTime := 99 }) wState.rooms ∧
     (seekVideo wState "roomRoomRo00" 99 "adminAdmin00").1.messages = wState.messages ∧
     (seekVideo wState "roomRoomRo00" 99 "adminAdmin00").1.userDocs = wState.userDocs ∧
     (seekVideo wState "roomRoomRo00" 99 "adminAdmin00").1.socketMap = wState.socketMap ∧
     ∃ r', findRoom (seekVideo wState "roomRoomRo00" 99 "adminAdmin00").1
         "roomRoomRo00" = some r' ∧
       r'.playbackTime = 99 ∧ r'.videoUrl = wRoom.videoUrl ∧
       r'.serviceId = wRoom.serviceId ∧ r'.isPlaying = wRoom.isPlaying ∧
       r'.admin = wRoom.admin ∧ r'.adminName = wRoom.adminName ∧
       r'.users = wRoom.users) :=
  ⟨by decide, by decide, by decide,
   seekVideo_frame wState "roomRoomRo00" 99 "adminAdmin00" wRoom
     (by decide) (by decide) (by decide)⟩

theorem joinRoom_fst (s : ServerState) (sid roomId userId : String) (r : Room)
    (u : UserDoc)
    (hvr : isValidObjectId roomId = true) (hvu : isValidObjectId userId = true)
    (hr : findRoom s roomId = some r) (hu : findUser s userId = some u) :
    (joinRoom s sid roomId userId).1 =
      joinMembershipWrite { s with socketMap := mapSet s.socketMap sid userId }
        roomId userId u (joinUserExists r userId) := by
  simp only [joinRoom, hvu, hvr, hr, hu, Bool.not_true]
  rw [if_neg (by decide : ¬(false = true)), if_neg (by decide : ¬(false = true))]
  split
  · rfl
  · split <;> rfl

/-- C4: the join-room membership mutation is not a conditional append at the
repository. The handler computes `userExists` from a previously read room
document and then issues an unconditional `$push`. Interleaving two joins for
the same `(roomId, userId)` at the await point between the read and the write
— both reads see the user absent, then both writes run — produces a duplicate
entry: the users array ends up with two entries for the same user id. -/
theorem joinRoom_concurrent_duplicate :
    findRoom wStateSolo "roomRoomRo00" = some wRoomSolo ∧
    joinUserExists wRoomSolo "userBuserB00" = false ∧
    (findRoom
        (joinMembershipWrite
          (joinMembershipWrite wStateSolo "roomRoomRo00" "userBuserB00" wUserDoc
            (joinUserExists wRoomSolo "userBuserB00"))
          "roomRoomRo00" "userBuserB00" wUserDoc
          (joinUserExists wRoomSolo "userBuserB00"))
        "roomRoomRo00").map
      (fun r => r.users.countP (fun u => u.id == "userBuserB00")) = some 2 := by
  refine ⟨by decide, by decide, by decide⟩

/-- C5: sequential idempotence of join-room. For an existing room and an
existing user, running the handler twice in sequence with the same
`(roomId, userId)` leaves the room's users-array length equal to its value
after the first run (the second run's `userExists` check sees the member and
skips the push). -/
theorem joinRoom_idempotent (s : ServerState) (sid1 sid2 roomId userId : String)
    (r : Room) (u : UserDoc)
    (hvr : isValidObjectId roomId = true) (hvu : isValidObjectId userId = true)
    (hr : findRoom s roomId = some r) (hu : findUser s userId = some u) :
    usersCount (joinRoom (joinRoom s sid1 roomId userId).1 sid2 roomId userId).1
        roomId =
      usersCount (joinRoom s sid1 roomId userId).1 roomId := by
  have h1 := joinRoom_fst s sid1 roomId userId r u hvr hvu hr hu
  have hr1 : findRoom { s with socketMap := mapSet s.socketMap sid1 userId } roomId =
      some r := hr
  have hu1 : findUser { s with socketMap := mapSet s.socketMap sid1 userId } userId =
      some u := hu
  cases he : joinUserExists r userId with
  | true =>
    rw [he] at h1
    have h1' : (joinRoom s sid1 roomId userId).1 =
        { s with socketMap := mapSet s.socketMap sid1 userId } := h1
    have hr2 : findRoom (joinRoom s sid1 roomId userId).1 roomId = some r := by
      rw [h1']; exact hr1
    have hu2 : findUser (joinRoom s sid1 roomId userId).1 userId = some u := by
      rw [h1']; exact hu1
    have h2 := joinRoom_fst _ sid2 roomId userId r u hvr hvu hr2 hu2
    rw [he] at h2
    rw [h2, h1']
    rfl
  | false =>
    rw [he] at h1
    have hpush : (joinRoom s sid1 roomId userId).1 =
        roomUpdateById { s with socketMap := mapSet s.socketMap sid1 userId } roomId
          (.pushUser (userSnapOf userId u)) := h1
    have hr2 : findRoom (joinRoom s sid1 roomId userId).1 roomId =
        some (applyUpdate (.pushUser (userSnapOf userId u)) r) := by
      rw [hpush]; exact findRoom_roomUpdateById _ roomId _ r hr1
    have hu2 : findUser (joinRoom s sid1 roomId userId).1 userId = some u := by
      rw [hpush]; exact hu
    have hex : joinUserExists (applyUpdate (.pushUser (userSnapOf userId u)) r)
        userId = true := by
      simp [joinUserExists, applyUpdate, userSnapOf, List.any_append]
    have h2 := joinRoom_fst _ sid2 roomId userId _ u hvr hvu hr2 hu2
    rw [hex] at h2
    rw [h2]
    rfl

theorem joinRoom_idempotent_witness :
    isValidObjectId "roomRoomRo00" = true ∧
    isValidObjectId "userBuserB00" = true ∧
    findRoom wStateSolo "roomRoomRo00" = some wRoomSolo ∧
    findUser wStateSolo "userBuserB00" = some wUserDoc ∧
    usersCount (joinRoom (joinRoom wStateSolo "sockA" "roomRoomRo00" "userBuserB00").1
        "sockB" "roomRoomRo00" "userBuserB00").1 "roomRoomRo00" =
      usersCount (joinRoom wStateSolo "sockA" "roomRoomRo00" "userBuserB00").1
        "roomRoomRo00" :=
  ⟨by decide, by decide, by decide, by decide,
   joinRoom_idempotent wStateSolo "sockA" "sockB" "roomRoomRo00" "userBuserB00"
     wRoomSolo wUserDoc (by decide) (by decide) (by decide) (by decide)⟩

/-- C8 counterexample. Both identifiers are well-formed, the sender and the
room both exist, yet `send-message` with empty text persists nothing and
broadcasts nothing: the Message schema's `required` validator on `text`
rejects the empty string at `save()` and the handler reports a `room-error`
to the caller only. The claim's "exactly when" enumeration (missing
user/room, malformed id) therefore does not cover all failures. -/
theorem sendMessage_emptyText_cex :
    isValidObjectId "userBuserB00" = true ∧
    isValidObjectId "roomRoomRo00" = true ∧
    (findUser wState "userBuserB00").isSome = true ∧
    (findRoom wState "roomRoomRo00").isSome = true ∧
    sendMessage wState "roomRoomRo00" "userBuserB00" "" 7 100 =
      (wState, [.emit .toCaller (.roomError
        "Failed to send message: Message validation failed: text is required")]) := by
  refine ⟨by decide, by decide, by decide, by decide, by decide⟩

/-- C8 (amended): `send-message` fails — reporting a `room-error` to the
caller only, persisting no message and broadcasting nothing — exactly when an
id is malformed, the sender or the room does not exist, or the text is empty;
otherwise it persists a Message embedding the sender's current document and
broadcasts `receive-message` with the full persisted record to the room
channel. No admin check occurs: the characterization never consults
`room.admin`. -/
theorem sendMessage_characterization (s : ServerState)
    (roomId msgUserId msgText : String) (freshMsgId : Nat) (now : Int) :
    (sendMessageFails s roomId msgUserId msgText →
      (sendMessage s roomId msgUserId msgText freshMsgId now).1 = s ∧
      ∃ msg, (sendMessage s roomId msgUserId msgText freshMsgId now).2 =
        [.emit .toCaller (.roomError msg)]) ∧
    (¬ sendMessageFails s roomId msgUserId msgText →
      ∃ u, findUser s msgUserId = some u ∧
        (sendMessage s roomId msgUserId msgText freshMsgId now).1 =
          { s with messages := s.messages ++
              [msgDoc roomId msgUserId msgText freshMsgId now u] } ∧
        (sendMessage s roomId msgUserId msgText freshMsgId now).2 =
          [.saveMessage (msgDoc roomId msgUserId msgText freshMsgId now u),
           .emit (.toRoom roomId)
             (.receiveMessage (msgDoc roomId msgUserId msgText freshMsgId now u))]) := by
  cases hvu : isValidObjectId msgUserId with
  | false =>
    have hs : sendMessage s roomId msgUserId msgText freshMsgId now =
        (s, errOnly "Failed to send message: Invalid userId: must be a valid ObjectId") := by
      simp [sendMessage, hvu]
    exact ⟨fun _ => ⟨by rw [hs],
        ⟨"Failed to send message: Invalid userId: must be a valid ObjectId",
         by rw [hs]; rfl⟩⟩,
      fun hnf => absurd (Or.inl hvu) hnf⟩
  | true =>
    cases hvr : isValidObjectId roomId with
    | false =>
      have hs : sendMessage s roomId msgUserId msgText freshMsgId now =
          (s, errOnly "Failed to send message: Invalid roomId: must be a valid ObjectId") := by
        simp [sendMessage, hvu, hvr]
      exact ⟨fun _ => ⟨by rw [hs],
          ⟨"Failed to send message: Invalid roomId: must be a valid ObjectId",
           by rw [hs]; rfl⟩⟩,
        fun hnf => absurd (Or.inr (Or.inl hvr)) hnf⟩
    | true =>
      cases hfu : findUser s msgUserId with
      | none =>
        have hs : sendMessage s roomId msgUserId msgText freshMsgId now =
            (s, errOnly ("Failed to send message: User " ++ msgUserId ++ " not found")) := by
          simp [sendMessage, hvu, hvr, hfu]
        exact ⟨fun _ => ⟨by rw [hs],
            ⟨"Failed to send message: User " ++ msgUserId ++ " not found",
             by rw [hs]; rfl⟩⟩,
          fun hnf => absurd (Or.inr (Or.inr (Or.inl hfu))) hnf⟩
      | some u =>
        cases hfr : findRoom s roomId with
        | none =>
          have hs : sendMessage s roomId msgUserId msgText freshMsgId now =
              (s, errOnly ("Failed to send message: Room " ++ roomId ++ " not found")) := by
            simp [sendMessage, hvu, hvr, hfu, hfr]
          exact ⟨fun _ => ⟨by rw [hs],
              ⟨"Failed to send message: Room " ++ roomId ++ " not found",
               by rw [hs]; rfl⟩⟩,
            fun hnf => absurd (Or.inr (Or.inr (Or.inr (Or.inl hfr)))) hnf⟩
        | some room =>
          cases hmt : msgText == "" with
          | true =>
            have hmt' : msgText = "" := by simpa using hmt
            have hs : sendMessage s roomId msgUserId msgText freshMsgId now =
                (s, errOnly
                  "Failed to send message: Message validation failed: text is required") := by
              simp [sendMessage, hvu, hvr, hfu, hfr, hmt]
            exact ⟨fun _ => ⟨by rw [hs],
                ⟨"Failed to send message: Message validation failed: text is required",
                 by rw [hs]; rfl⟩⟩,
              fun hnf => absurd (Or.inr (Or.inr (Or.inr (Or.inr hmt')))) hnf⟩
          | false =>
            have hs : sendMessage s roomId msgUserId msgText freshMsgId now =
                ({ s with messages := s.messages ++
                     [msgDoc roomId msgUserId msgText freshMsgId now u] },
                 [.saveMessage (msgDoc roomId msgUserId msgText freshMsgId now u),
                  .emit (.toRoom roomId)
                    (.receiveMessage
                      (msgDoc roomId msgUserId msgText freshMsgId now u))]) := by
              simp [sendMessage, hvu, hvr, hfu, hfr, hmt]
            refine ⟨fun hfail => ?_, fun _ => ⟨u, rfl, by rw [hs], by rw [hs]⟩⟩
            exfalso
            rcases hfail with h | h | h | h | h
            · rw [hvu] at h; exact Bool.noConfusion h
            · rw [hvr] at h; exact Bool.noConfusion h
            · rw [hfu] at h; exact Option.noConfusion h
            · rw [hfr] at h; exact Option.noConfusion h
            · rw [h] at hmt; simp at hmt

theorem sendMessage_characterization_witness :
    ¬ sendMessageFails wState "roomRoomRo00" "userBuserB00" "hello" ∧
    (∃ u, findUser wState "userBuserB00" = some u ∧
      (sendMessage wState "roomRoomRo00" "userBuserB00" "hello" 7 100).1 =
        { wState with messages := wState.messages ++
            [msgDoc "roomRoomRo00" "userBuserB00" "hello" 7 100 u] } ∧
      (sendMessage wState "roomRoomRo00" "userBuserB00" "hello" 7 100).2 =
        [.saveMessage (msgDoc "roomRoomRo00" "userBuserB00" "hello" 7 100 u),
         .emit (.toRoom "roomRoomRo00")
           (.receiveMessage (msgDoc "roomRoomRo00" "userBuserB00" "hello" 7 100 u))]) :=
  ⟨by rw [sendMessageFails]; decide,
   (sendMessage_characterization wState "roomRoomRo00" "userBuserB00" "hello" 7 100).2
     (by rw [sendMessageFails]; decide)⟩

/-- C7: an accepted `create-room` by a user who already administers a room
first deletes that prior room and the messages referencing it (the deletion
actions precede the save of the new room in the trace), creates the new room
with the admin snapshot as sole member and empty playback state, and leaves
the user admin of exactly one room. -/
theorem createRoom_admin_unique (s : ServerState)
    (sid userId userName freshId : String) (now : Int) (u : UserDoc) (er : Room)
    (hvu : isValidObjectId userId = true)
    (hn : userName ≠ "")
    (hu : findUser s userId = some u)
    (her : s.rooms.find? (fun x => x.admin == userId) = some er)
    (hone : s.rooms.countP (fun x => x.admin == userId) ≤ 1)
    (hfresh : freshId ∉ s.rooms.map (fun x => x.id)) :
    createRoom s sid userId userName freshId now =
      ({ s with rooms := deleteFirst (fun x => x.admin == userId) s.rooms ++
                  [newRoomDoc userId userName freshId now u],
                messages := s.messages.filter (fun m => !(m.room == er.id)),
                socketMap := mapSet s.socketMap sid userId },
       [.deleteRoomByAdmin userId, .deleteMessages er.id,
        .saveRoom (newRoomDoc userId userName freshId now u),
        .emit (.toRoom freshId) (.roomCreated freshId userId [userId] userName),
        .emit (.toRoom freshId) (.roomDetails (some
          { adminName := userName, participants := [userSnapOf userId u],
            activeUsersCount := 1 }))]) ∧
    (newRoomDoc userId userName freshId now u).users = [userSnapOf userId u] ∧
    (newRoomDoc userId userName freshId now u).isPlaying = false ∧
    (newRoomDoc userId userName freshId now u).playbackTime = 0 ∧
    (createRoom s sid userId userName freshId now).1.rooms.countP
        (fun x => x.admin == userId) = 1 ∧
    (∀ m ∈ (createRoom s sid userId userName freshId now).1.messages,
       m.room ≠ er.id) := by
  have hne : (userId == "") = false := by
    cases hq : userId == "" with
    | false => rfl
    | true =>
      have hq' : userId = "" := by simpa using hq
      rw [hq'] at hvu
      exact absurd hvu (by decide)
  have hnn : (userName == "") = false := by
    simp only [beq_eq_false_iff_ne, ne_eq]; exact hn
  have hall : ∀ x ∈ deleteFirst (fun x => x.admin == userId) s.rooms,
      (x.id == freshId) = false := by
    intro x hx
    have hxs : x ∈ s.rooms :=
      (deleteFirst_sublist (fun x => x.admin == userId) s.rooms).subset hx
    have hmem : x.id ∈ s.rooms.map (fun x => x.id) := List.mem_map_of_mem _ hxs
    have hne' : x.id ≠ freshId := fun he => hfresh (he ▸ hmem)
    simp [hne']
  have hfind : ((deleteFirst (fun x => x.admin == userId) s.rooms ++
      [newRoomDoc userId userName freshId now u]).find?
        (fun x => x.id == freshId)) = some (newRoomDoc userId userName freshId now u) :=
    find?_append_cons [] hall (by simp [newRoomDoc])
  have hdet : fetchRoomDetails
      { s with rooms := deleteFirst (fun x => x.admin == userId) s.rooms ++
                  [newRoomDoc userId userName freshId now u],
               messages := s.messages.filter (fun m => !(m.room == er.id)),
               socketMap := mapSet s.socketMap sid userId } freshId =
      some { adminName := userName, participants := [userSnapOf userId u],
             activeUsersCount := 1 } := by
    simp only [fetchRoomDetails, findRoom, hfind]
    rfl
  have hmain : createRoom s sid userId userName freshId now =
      ({ s with rooms := deleteFirst (fun x => x.admin == userId) s.rooms ++
                  [newRoomDoc userId userName freshId now u],
                messages := s.messages.filter (fun m => !(m.room == er.id)),
                socketMap := mapSet s.socketMap sid userId },
       [.deleteRoomByAdmin userId, .deleteMessages er.id,
        .saveRoom (newRoomDoc userId userName freshId now u),
        .emit (.toRoom freshId) (.roomCreated freshId userId [userId] userName),
        .emit (.toRoom freshId) (.roomDetails (some
          { adminName := userName, participants := [userSnapOf userId u],
            activeUsersCount := 1 }))]) := by
    simp only [createRoom, hne, hvu, hnn, hu, her, Bool.not_true, Bool.or_self,
      Bool.false_or]
    rw [if_neg (by decide : ¬(false = true)), if_neg (by decide : ¬(false = true))]
    rw [hdet]
    rfl
  have hpa := List.find?_some her
  have hpos : 0 < s.rooms.countP (fun x => x.admin == userId) := by
    rw [List.countP_pos_iff]
    exact ⟨er, List.mem_of_find?_eq_some her, hpa⟩
  have hcount : s.rooms.countP (fun x => x.admin == userId) = 1 :=
    le_antisymm hone hpos
  refine ⟨hmain, rfl, rfl, rfl, ?_, ?_⟩
  · rw [hmain]
    simp [List.countP_append, countP_deleteFirst_self, hcount, List.countP_cons,
      newRoomDoc]
  · intro m hm
    rw [hmain] at hm
    have hpred := (List.mem_filter.1 hm).2
    simpa using hpred

theorem createRoom_admin_unique_witness :
    isValidObjectId "adminAdmin00" = true ∧
    "Alice" ≠ "" ∧
    findUser wState "adminAdmin00" = some wAdminDoc ∧
    wState.rooms.find? (fun x => x.admin == "adminAdmin00") = some wRoom ∧
    wState.rooms.countP (fun x => x.admin == "adminAdmin00") ≤ 1 ∧
    "freshRoomId0" ∉ wState.rooms.map (fun x => x.id) ∧
    ((createRoom wState "sock1" "adminAdmin00" "Alice" "freshRoomId0" 77).1.rooms.countP
        (fun x => x.admin == "adminAdmin00") = 1 ∧
     ∀ m ∈ (createRoom wState "sock1" "adminAdmin00" "Alice" "freshRoomId0" 77).1.messages,
       m.room ≠ wRoom.id) :=
  ⟨by decide, by decide, by decide, by decide, by decide, by decide,
   (createRoom_admin_unique wState "sock1" "adminAdmin00" "Alice" "freshRoomId0" 77
      wAdminDoc wRoom (by decide) (by decide) (by decide) (by decide) (by decide)
      (by decide)).2.2.2.2⟩

/- Invariant-preservation lemmas for the room invariant (C3). -/

theorem nodup_append_single {α : Type _} {l : List α} {a : α}
    (h : l.Nodup) (ha : a ∉ l) : (l ++ [a]).Nodup := by
  simp [List.nodup_append, h, ha]

theorem adminPresent_push (snap : UserSnap) (r : Room) (h : adminPresent r) :
    adminPresent (applyUpdate (.pushUser snap) r) := by
  unfold adminPresent at h ⊢
  simp only [applyUpdate, List.map_append, List.mem_append]
  exact Or.inl h

theorem adminPresent_pull (uid : String) (r : Room) (hne : r.admin ≠ uid)
    (h : adminPresent r) : adminPresent (applyUpdate (.pullUser uid) r) := by
  unfold adminPresent at h ⊢
  rcases List.mem_map.1 h with ⟨x, hx, hxid⟩
  refine List.mem_map.2 ⟨x, List.mem_filter.2 ⟨hx, ?_⟩, hxid⟩
  have : x.id ≠ uid := hxid ▸ hne
  simp [this]

theorem nodupIds_deleteFirst {p : Room → Bool} {l : List Room}
    (h : (l.map (fun r => r.id)).Nodup) :
    ((deleteFirst p l).map (fun r => r.id)).Nodup :=
  ((deleteFirst_sublist p l).map (fun r => r.id)).nodup h

theorem nodupIds_updateFirst {p : Room → Bool} {u : RoomUpdate} {l : List Room}
    (h : (l.map (fun r => r.id)).Nodup) :
    ((updateFirst p (applyUpdate u) l).map (fun r => r.id)).Nodup := by
  rw [map_updateFirst (fun a => applyUpdate_id u a)]
  exact h

theorem sendMessage_rooms (s : ServerState) (roomId msgUserId msgText : String)
    (freshMsgId : Nat) (now : Int) :
    (sendMessage s roomId msgUserId msgText freshMsgId now).1.rooms = s.rooms := by
  unfold sendMessage
  split
  · rfl
  · split
    · rfl
    · split
      · rfl
      · split
        · rfl
        · split
          · rfl
          · rfl

theorem joinRoom_rooms (s : ServerState) (sid roomId userId : String) :
    (joinRoom s sid roomId userId).1.rooms = s.rooms ∨
    ∃ snap, (joinRoom s sid roomId userId).1.rooms =
      updateFirst (fun r => r.id == roomId) (applyUpdate (.pushUser snap)) s.rooms := by
  unfold joinRoom joinMembershipWrite
  split
  · exact Or.inl rfl
  · split
    · exact Or.inl rfl
    · split
      · exact Or.inl rfl
      · rename_i room hroom
        split
        · exact Or.inl rfl
        · rename_i user huser
          dsimp only
          rcases Bool.eq_false_or_eq_true (joinUserExists room userId) with he | he
          · rw [if_pos he, if_pos he]
            split
            · exact Or.inl rfl
            · split
              · exact Or.inl rfl
              · exact Or.inl rfl
          · have hne' : ¬(joinUserExists room userId = true) := by simp [he]
            rw [if_neg hne', if_neg hne']
            split
            · exact Or.inr ⟨_, rfl⟩
            · split
              · exact Or.inr ⟨_, rfl⟩
              · exact Or.inr ⟨_, rfl⟩

theorem leaveRoom_rooms (s : ServerState) (sid roomId userId : String) :
    (leaveRoom s sid roomId userId).1.rooms = s.rooms ∨
    (leaveRoom s sid roomId userId).1.rooms =
      deleteFirst (fun r => r.id == roomId) s.rooms ∨
    (∃ room, findRoom s roomId = some room ∧ (room.admin == userId) = false ∧
      ((leaveRoom s sid roomId userId).1.rooms =
         updateFirst (fun r => r.id == roomId) (applyUpdate (.pullUser userId))
           s.rooms ∨
       (leaveRoom s sid roomId userId).1.rooms =
         deleteFirst (fun r => r.id == roomId)
           (updateFirst (fun r => r.id == roomId) (applyUpdate (.pullUser userId))
             s.rooms))) := by
  unfold leaveRoom
  split
  · exact Or.inl rfl
  · split
    · exact Or.inl rfl
    · split
      · exact Or.inl rfl
      · rename_i room hroom
        split
        · exact Or.inr (Or.inl rfl)
        · rename_i hane
          refine Or.inr (Or.inr ⟨room, hroom, ?_, ?_⟩)
          · cases h : room.admin == userId with
            | false => rfl
            | true => exact absurd h hane
          · dsimp only
            split
            · exact Or.inl rfl
            · split
              · exact Or.inr rfl
              · split
                · exact Or.inl rfl
                · exact Or.inl rfl

theorem adminPresent_pull_found (s : ServerState) (roomId userId : String)
    (room : Room) (hfind : findRoom s roomId = some room)
    (hane : (room.admin == userId) = false)
    (hadm : ∀ r ∈ s.rooms, adminPresent r) :
    ∀ r ∈ updateFirst (fun r => r.id == roomId) (applyUpdate (.pullUser userId))
        s.rooms, adminPresent r := by
  obtain ⟨l1, l2, hl, h1, _⟩ := find?_decomp hfind
  rw [hl, updateFirst_append_cons l2 h1 (by
    have := List.find?_some hfind
    exact this)]
  intro r hr
  rcases List.mem_append.1 hr with h | h
  · exact hadm r (by rw [hl]; exact List.mem_append_left _ h)
  · rcases List.mem_cons.1 h with rfl | h'
    · refine adminPresent_pull userId room ?_ (hadm room (by
        rw [hl]; exact List.mem_append_right _ (List.mem_cons_self _ _)))
      simpa using hane
    · exact hadm r (by
        rw [hl]
        exact List.mem_append_right _ (List.mem_cons_of_mem _ h'))

theorem adminPresent_updateFirst_lift (s : ServerState) (roomId : String)
    (u : RoomUpdate)
    (husers : ∀ r, adminPresent r → adminPresent (applyUpdate u r))
    (hadm : ∀ r ∈ s.rooms, adminPresent r) :
    ∀ r ∈ updateFirst (fun r => r.id == roomId) (applyUpdate u) s.rooms,
      adminPresent r := by
  intro r hr
  rcases mem_updateFirst hr with h | ⟨a, ha, _, rfl⟩
  · exact hadm r h
  · exact husers a (hadm a ha)

theorem disconnectRoomStep_inv (sOrig : ServerState) (userId : String)
    (hnd0 : (sOrig.rooms.map (fun r => r.id)).Nodup)
    (room : Room) (hroom : room ∈ sOrig.rooms)
    (acc : ServerState × List Action) (hP : DiscInv sOrig acc) :
    DiscInv sOrig (disconnectRoomStep userId acc room) := by
  obtain ⟨hadm, hnd, hagree⟩ := hP
  have delCase : ∀ (t : ServerState) (tr : List Action),
      DiscInv sOrig (t, tr) →
      DiscInv sOrig
        ({ t with rooms := deleteFirst (fun r => r.id == room.id) t.rooms,
                  messages := t.messages.filter (fun m => !(m.room == room.id)) },
         tr) := by
    intro t tr ⟨ha, hn, hg⟩
    refine ⟨?_, nodupIds_deleteFirst hn, ?_⟩
    · intro r hr
      exact ha r ((deleteFirst_sublist _ t.rooms).subset hr)
    · intro r hr
      exact hg r ((deleteFirst_sublist _ t.rooms).subset hr)
  unfold disconnectRoomStep
  dsimp only
  split
  · exact delCase acc.1 _ ⟨hadm, hnd, hagree⟩
  · rename_i hane
    have hroomne : room.admin ≠ userId := by
      intro h
      exact hane (by simp [h])
    have adm1 : ∀ r ∈ updateFirst (fun r => r.id == room.id)
        (applyUpdate (.pullUser userId)) acc.1.rooms, adminPresent r := by
      intro r hr
      rcases mem_updateFirst hr with h | ⟨a, ha, pa, rfl⟩
      · exact hadm r h
      · obtain ⟨a0, ha0, hid, hadmEq⟩ := hagree a ha
        have haid : a.id = room.id := by simpa using pa
        have ha0room : a0 = room :=
          List.inj_on_of_nodup_map hnd0 ha0 hroom (by rw [← hid, haid])
        have hane' : a.admin ≠ userId := by
          rw [hadmEq, ha0room]; exact hroomne
        exact adminPresent_pull userId a hane' (hadm a ha)
    have nd1 := nodupIds_updateFirst (u := .pullUser userId)
      (p := fun r => r.id == room.id) hnd
    have ag1 : ∀ r ∈ updateFirst (fun r => r.id == room.id)
        (applyUpdate (.pullUser userId)) acc.1.rooms,
        ∃ r0 ∈ sOrig.rooms, r.id = r0.id ∧ r.admin = r0.admin := by
      intro r hr
      rcases mem_updateFirst hr with h | ⟨a, ha, _, rfl⟩
      · exact hagree r h
      · obtain ⟨a0, ha0, hid, hadmEq⟩ := hagree a ha
        exact ⟨a0, ha0, by rw [applyUpdate_id]; exact hid,
               by rw [applyUpdate_admin]; exact hadmEq⟩
    have hP1 : DiscInv sOrig
        (roomUpdateById acc.1 room.id (.pullUser userId), acc.2 ++
          [.updateRoom room.id (.pullUser userId)]) := ⟨adm1, nd1, ag1⟩
    split
    · exact hP1
    · split
      · exact delCase (roomUpdateById acc.1 room.id (.pullUser userId)) _
          ⟨adm1, nd1, ag1⟩
      · split
        · exact ⟨adm1, nd1, ag1⟩
        · exact ⟨adm1, nd1, ag1⟩

theorem inv_disconnect (s : ServerState) (sid : String)
    (hadm : ∀ r ∈ s.rooms, adminPresent r)
    (hnd : (s.rooms.map (fun r => r.id)).Nodup) :
    (∀ r ∈ (disconnect s sid).1.rooms, adminPresent r) ∧
    ((disconnect s sid).1.rooms.map (fun r => r.id)).Nodup := by
  unfold disconnect
  cases hmg : mapGet s.socketMap sid with
  | none => exact ⟨hadm, hnd⟩
  | some userId =>
    dsimp only
    have key := foldl_inv (disconnectRoomStep userId) (DiscInv s)
      (List.filter (fun r => r.users.any (fun u => u.id == userId)) s.rooms)
      ({ s with socketMap := mapDelete s.socketMap sid }, [])
      ⟨hadm, hnd, fun r hr => ⟨r, hr, rfl, rfl⟩⟩
      (fun b a ha hb => disconnectRoomStep_inv s userId hnd a
        (List.mem_of_mem_filter ha) b hb)
    exact ⟨key.1, key.2.1⟩

theorem inv_createRoom (s : ServerState) (sid userId userName freshId : String)
    (now : Int)
    (hadm : ∀ r ∈ s.rooms, adminPresent r)
    (hnd : (s.rooms.map (fun r => r.id)).Nodup)
    (hfresh : freshId ∉ s.rooms.map (fun r => r.id)) :
    (∀ r ∈ (createRoom s sid userId userName freshId now).1.rooms,
       adminPresent r) ∧
    ((createRoom s sid userId userName freshId now).1.rooms.map
        (fun r => r.id)).Nodup := by
  have hnew : ∀ admin : UserDoc,
      adminPresent (newRoomDoc userId userName freshId now admin) := by
    intro admin
    simp [adminPresent, newRoomDoc, userSnapOf]
  unfold createRoom
  split
  · exact ⟨hadm, hnd⟩
  · split
    · exact ⟨hadm, hnd⟩
    · split
      · exact ⟨hadm, hnd⟩
      · rename_i admin hadmin
        dsimp only
        split
        · -- no prior room: rooms' = s.rooms ++ [new]
          constructor
          · intro r hr
            rcases List.mem_append.1 hr with h | h
            · exact hadm r h
            · rcases List.mem_singleton.1 h with rfl
              exact hnew admin
          · rw [List.map_append]
            exact nodup_append_single hnd hfresh
        · -- prior room deleted first
          constructor
          · intro r hr
            rcases List.mem_append.1 hr with h | h
            · exact hadm r ((deleteFirst_sublist _ s.rooms).subset h)
            · rcases List.mem_singleton.1 h with rfl
              exact hnew admin
          · rw [List.map_append]
            refine nodup_append_single (nodupIds_deleteFirst hnd) ?_
            intro hmem
            exact hfresh
              (((deleteFirst_sublist _ s.rooms).map (fun r => r.id)).subset hmem)

theorem inv_playVideo (s : ServerState) (roomId url adminId : String)
    (hadm : ∀ r ∈ s.rooms, adminPresent r)
    (hnd : (s.rooms.map (fun r => r.id)).Nodup) :
    (∀ r ∈ (playVideo s roomId url adminId).1.rooms, adminPresent r) ∧
    ((playVideo s roomId url adminId).1.rooms.map (fun r => r.id)).Nodup := by
  unfold playVideo
  split
  · exact ⟨hadm, hnd⟩
  · split
    · exact ⟨hadm, hnd⟩
    · split
      · exact ⟨hadm, hnd⟩
      · exact ⟨adminPresent_updateFirst_lift s roomId _ (fun a h => h) hadm,
               nodupIds_updateFirst hnd⟩

theorem inv_pauseVideo (s : ServerState) (roomId : String) (time : Int)
    (adminId : String)
    (hadm : ∀ r ∈ s.rooms, adminPresent r)
    (hnd : (s.rooms.map (fun r => r.id)).Nodup) :
    (∀ r ∈ (pauseVideo s roomId time adminId).1.rooms, adminPresent r) ∧
    ((pauseVideo s roomId time adminId).1.rooms.map (fun r => r.id)).Nodup := by
  unfold pauseVideo
  split
  · exact ⟨hadm, hnd⟩
  · split
    · exact ⟨hadm, hnd⟩
    · split
      · exact ⟨hadm, hnd⟩
      · exact ⟨adminPresent_updateFirst_lift s roomId _ (fun a h => h) hadm,
               nodupIds_updateFirst hnd⟩

theorem inv_resumeVideo (s : ServerState) (roomId : String) (time : Int)
    (adminId : String)
    (hadm : ∀ r ∈ s.rooms, adminPresent r)
    (hnd : (s.rooms.map (fun r => r.id)).Nodup) :
    (∀ r ∈ (resumeVideo s roomId time adminId).1.rooms, adminPresent r) ∧
    ((resumeVideo s roomId time adminId).1.rooms.map (fun r => r.id)).Nodup := by
  unfold resumeVideo
  split
  · exact ⟨hadm, hnd⟩
  · split
    · exact ⟨hadm, hnd⟩
    · split
      · exact ⟨hadm, hnd⟩
      · exact ⟨adminPresent_updateFirst_lift s roomId _ (fun a h => h) hadm,
               nodupIds_updateFirst hnd⟩

theorem inv_seekVideo (s : ServerState) (roomId : String) (time : Int)
    (adminId : String)
    (hadm : ∀ r ∈ s.rooms, adminPresent r)
    (hnd : (s.rooms.map (fun r => r.id)).Nodup) :
    (∀ r ∈ (seekVideo s roomId time adminId).1.rooms, adminPresent r) ∧
    ((seekVideo s roomId time adminId).1.rooms.map (fun r => r.id)).Nodup := by
  unfold seekVideo
  split
  · exact ⟨hadm, hnd⟩
  · split
    · exact ⟨hadm, hnd⟩
    · split
      · exact ⟨hadm, hnd⟩
      · exact ⟨adminPresent_updateFirst_lift s roomId _ (fun a h => h) hadm,
               nodupIds_updateFirst hnd⟩

/-- C3: the room invariant — the persisted admin id occurs in the users array
and the users array is non-empty — is preserved by every socket operation
(create-room, join-room, leave-room, disconnect, the four playback controls,
send-message), together with duplicate-freeness of room ids; in particular no
operation ever leaves a zero-member room in the store (the branches that
would produce one delete the room and its messages instead). -/
theorem stateInv_preserved (s : ServerState) (op : Op)
    (hadm : ∀ r ∈ s.rooms, adminPresent r)
    (hnd : (s.rooms.map (fun r => r.id)).Nodup)
    (hfresh : opFresh s op) :
    (∀ r ∈ (applyOp s op).1.rooms, adminPresent r ∧ 1 ≤ r.users.length) ∧
    ((applyOp s op).1.rooms.map (fun r => r.id)).Nodup := by
  have lenOf : ∀ r : Room, adminPresent r → 1 ≤ r.users.length := by
    intro r h
    rcases List.mem_map.1 h with ⟨x, hx, _⟩
    exact List.length_pos.2 (List.ne_nil_of_mem hx)
  have pack : ∀ t : ServerState × List Action,
      ((∀ r ∈ t.1.rooms, adminPresent r) ∧
       ((t.1.rooms.map (fun r => r.id)).Nodup)) →
      (∀ r ∈ t.1.rooms, adminPresent r ∧ 1 ≤ r.users.length) ∧
      ((t.1.rooms.map (fun r => r.id)).Nodup) :=
    fun t ht => ⟨fun r hr => ⟨ht.1 r hr, lenOf r (ht.1 r hr)⟩, ht.2⟩
  cases op with
  | create sid userId userName freshId now =>
    exact pack _ (inv_createRoom s sid userId userName freshId now hadm hnd hfresh)
  | join sid roomId userId =>
    refine pack _ ?_
    show (∀ r ∈ (joinRoom s sid roomId userId).1.rooms, adminPresent r) ∧
      (((joinRoom s sid roomId userId).1.rooms.map (fun r => r.id)).Nodup)
    rcases joinRoom_rooms s sid roomId userId with h | ⟨snap, h⟩
    · rw [h]; exact ⟨hadm, hnd⟩
    · rw [h]
      exact ⟨adminPresent_updateFirst_lift s roomId _ (adminPresent_push snap) hadm,
             nodupIds_updateFirst hnd⟩
  | leave sid roomId userId =>
    refine pack _ ?_
    show (∀ r ∈ (leaveRoom s sid roomId userId).1.rooms, adminPresent r) ∧
      (((leaveRoom s sid roomId userId).1.rooms.map (fun r => r.id)).Nodup)
    rcases leaveRoom_rooms s sid roomId userId with h | h | ⟨room, hfind, hane, h | h⟩
    · rw [h]; exact ⟨hadm, hnd⟩
    · rw [h]
      exact ⟨fun r hr => hadm r ((deleteFirst_sublist _ s.rooms).subset hr),
             nodupIds_deleteFirst hnd⟩
    · rw [h]
      exact ⟨adminPresent_pull_found s roomId userId room hfind hane hadm,
             nodupIds_updateFirst hnd⟩
    · rw [h]
      refine ⟨?_, nodupIds_deleteFirst (nodupIds_updateFirst hnd)⟩
      intro r hr
      exact adminPresent_pull_found s roomId userId room hfind hane hadm r
        ((deleteFirst_sublist _ _).subset hr)
  | disc sid => exact pack _ (inv_disconnect s sid hadm hnd)
  | play roomId url adminId => exact pack _ (inv_playVideo s roomId url adminId hadm hnd)
  | pause roomId time adminId =>
    exact pack _ (inv_pauseVideo s roomId time adminId hadm hnd)
  | resume roomId time adminId =>
    exact pack _ (inv_resumeVideo s roomId time adminId hadm hnd)
  | seek roomId time adminId =>
    exact pack _ (inv_seekVideo s roomId time adminId hadm hnd)
  | send roomId userId text freshMsgId now =>
    refine pack _ ?_
    show (∀ r ∈ (sendMessage s roomId userId text freshMsgId now).1.rooms,
        adminPresent r) ∧
      (((sendMessage s roomId userId text freshMsgId now).1.rooms.map
          (fun r => r.id)).Nodup)
    rw [sendMessage_rooms]
    exact ⟨hadm, hnd⟩

theorem stateInv_preserved_witness :
    (∀ r ∈ wState.rooms, adminPresent r) ∧
    ((wState.rooms.map (fun r => r.id)).Nodup) ∧
    opFresh wState (.leave "sock2" "roomRoomRo00" "userBuserB00") ∧
    ((∀ r ∈ (applyOp wState (.leave "sock2" "roomRoomRo00" "userBuserB00")).1.rooms,
        adminPresent r ∧ 1 ≤ r.users.length) ∧
     ((applyOp wState (.leave "sock2" "roomRoomRo00" "userBuserB00")).1.rooms.map
         (fun r => r.id)).Nodup) :=
  ⟨by simp only [adminPresent]; decide, by decide, trivial,
   stateInv_preserved wState (.leave "sock2" "roomRoomRo00" "userBuserB00")
     (by simp only [adminPresent]; decide) (by decide) trivial⟩

/-- C9 counterexample. server.js registers handlers exactly for the events of
`serverHandledEvents`; `get-room-details` is not among them, so a
`get-room-details` event reaches no handler on the current server and the
requesting connection receives neither `room-details` nor `room-error`,
contradicting the claimed response. (Only the earlier variant, part_003,
registers this handler.) -/
theorem getRoomDetails_unregistered_cex :
    ¬ "get-room-details" ∈ serverHandledEvents := by decide

/-- C9 (amended): the current server registers no handler for
`get-room-details`, so the event is ignored and the caller receives nothing.
In the earlier variant's handler (part_003): a room absent from the in-memory
table (or an empty roomId) yields `room-error "Room does not exist."` to the
caller; for a table-present room, when the room id and every in-memory
participant id cast to ObjectIds and the room is in the persisted store, the
requesting connection alone receives a `room-details` snapshot; any failure
while building the snapshot — the persisted room missing, or a malformed
room or participant id making `findById` reject with a CastError — yields
`room-error "Failed to fetch room details."` to the caller only. -/
theorem getRoomDetails_amended :
    (¬ "get-room-details" ∈ serverHandledEvents) ∧
    (∀ (s : ServerStateV0) (roomId : String) (e : RoomV0) (r : Room),
       roomId ≠ "" →
       tableGet s.roomsTable roomId = some e →
       castsToObjectId roomId = true →
       s.dbRooms.find? (fun x => x.id == roomId) = some r →
       e.participants.all castsToObjectId = true →
       ∃ d, getRoomDetailsV0 s roomId = [.emit .toCaller (.roomDetailsV0 d)]) ∧
    (∀ (s : ServerStateV0) (roomId : String),
       tableGet s.roomsTable roomId = none →
       getRoomDetailsV0 s roomId =
         [.emit .toCaller (.roomError "Room does not exist.")]) ∧
    (∀ (s : ServerStateV0) (roomId : String) (e : RoomV0),
       roomId ≠ "" →
       tableGet s.roomsTable roomId = some e →
       fetchRoomDetailsV0 s roomId = none →
       getRoomDetailsV0 s roomId =
         [.emit .toCaller (.roomError "Failed to fetch room details.")]) := by
  refine ⟨by decide, ?_, ?_, ?_⟩
  · intro s roomId e r hne ht hc hr hp
    have hd : ∃ d, fetchRoomDetailsV0 s roomId = some d := by
      unfold fetchRoomDetailsV0
      rw [if_neg (by simp [hc]), hr, ht]
      dsimp only
      rw [if_neg (by simp [hp])]
      exact ⟨_, rfl⟩
    obtain ⟨d, hd⟩ := hd
    refine ⟨d, ?_⟩
    have hcond : ¬((roomId == "" || (tableGet s.roomsTable roomId).isNone) = true) := by
      simp [hne, ht]
    unfold getRoomDetailsV0
    rw [if_neg hcond, hd]
  · intro s roomId ht
    unfold getRoomDetailsV0
    rw [if_pos (by simp [ht])]
  · intro s roomId e hne ht hfet
    have hcond : ¬((roomId == "" || (tableGet s.roomsTable roomId).isNone) = true) := by
      simp [hne, ht]
    unfold getRoomDetailsV0
    rw [if_neg hcond, hfet]

theorem getRoomDetails_amended_witness :
    (("roomRoomRo00" : String) ≠ "" ∧
     tableGet wStateV0.roomsTable "roomRoomRo00" = some
       { admin := "adminAdmin00", videoUrl := "", serviceId := "1",
         participants := ["adminAdmin00"] } ∧
     castsToObjectId "roomRoomRo00" = true ∧
     wStateV0.dbRooms.find? (fun x => x.id == "roomRoomRo00") = some wRoomSolo ∧
     (["adminAdmin00"] : List String).all castsToObjectId = true ∧
     (∃ d, getRoomDetailsV0 wStateV0 "roomRoomRo00" =
        [.emit .toCaller (.roomDetailsV0 d)])) ∧
    (tableGet wStateV0bad.roomsTable "roomRoomRo00" = some
       { admin := "adminAdmin00", videoUrl := "", serviceId := "1",
         participants := ["bad"] } ∧
     fetchRoomDetailsV0 wStateV0bad "roomRoomRo00" = none ∧
     getRoomDetailsV0 wStateV0bad "roomRoomRo00" =
       [.emit .toCaller (.roomError "Failed to fetch room details.")]) :=
  ⟨⟨by decide, by decide, by decide, by decide, by decide,
    getRoomDetails_amended.2.1 wStateV0 "roomRoomRo00"
      { admin := "adminAdmin00", videoUrl := "", serviceId := "1",
        participants := ["adminAdmin00"] } wRoomSolo (by decide) (by decide)
      (by decide) (by decide) (by decide)⟩,
   ⟨by decide, by decide,
    getRoomDetails_amended.2.2.2 wStateV0bad "roomRoomRo00"
      { admin := "adminAdmin00", videoUrl := "", serviceId := "1",
        participants := ["bad"] } (by decide) (by decide) (by decide)⟩⟩

/- Helper lemmas for the admin-departure dismissal (C2). -/

theorem disconnectRoomStep_admin (userId : String)
    (acc : ServerState × List Action) (room : Room)
    (h : (room.admin == userId) = true) :
    disconnectRoomStep userId acc room =
      ({ acc.1 with
          rooms := deleteFirst (fun x => x.id == room.id) acc.1.rooms,
          messages := acc.1.messages.filter (fun m => !(m.room == room.id)) },
       acc.2 ++ [.emit (.toRoom room.id) .roomDismissed,
                 .deleteRoomById room.id, .deleteMessages room.id]) := by
  unfold disconnectRoomStep
  dsimp only
  rw [if_pos h]

theorem disconnectRoomStep_countP_rooms (userId X : String)
    (acc : ServerState × List Action) (a : Room) (hne : a.id ≠ X) :
    ((disconnectRoomStep userId acc a).1.rooms.countP (fun x => x.id == X)) =
      acc.1.rooms.countP (fun x => x.id == X) := by
  have hother : ∀ b : Room, ((fun x : Room => x.id == a.id) b) = true →
      ((fun x : Room => x.id == X) b) = false := by
    intro b hb
    have hb' : b.id = a.id := by simpa using hb
    simp [hb', hne]
  have hq : ∀ b : Room,
      ((fun x : Room => x.id == X) (applyUpdate (.pullUser userId) b)) =
        ((fun x : Room => x.id == X) b) := by
    intro b
    show ((applyUpdate (.pullUser userId) b).id == X) = (b.id == X)
    rw [applyUpdate_id]
  unfold disconnectRoomStep
  dsimp only
  split
  · exact countP_deleteFirst_other hother acc.1.rooms
  · split
    · exact countP_updateFirst hq acc.1.rooms
    · split
      · rw [show (roomUpdateById acc.1 a.id (.pullUser userId)).rooms =
            updateFirst (fun x => x.id == a.id) (applyUpdate (.pullUser userId))
              acc.1.rooms from rfl] at *
        rw [countP_deleteFirst_other hother, countP_updateFirst hq]
      · split
        · exact countP_updateFirst hq acc.1.rooms
        · exact countP_updateFirst hq acc.1.rooms

theorem disconnectRoomStep_countP_msgs (userId X : String)
    (acc : ServerState × List Action) (a : Room) :
    ((disconnectRoomStep userId acc a).1.messages.countP
        (fun m => m.room == X)) ≤
      acc.1.messages.countP (fun m => m.room == X) := by
  unfold disconnectRoomStep
  dsimp only
  split
  · exact (List.filter_sublist _).countP_le _
  · split
    · exact Nat.le_refl _
    · split
      · exact (List.filter_sublist _).countP_le _
      · split
        · exact Nat.le_refl _
        · exact Nat.le_refl _

theorem disconnectRoomStep_trace (userId : String)
    (acc : ServerState × List Action) (a : Room) :
    ∃ ex, (disconnectRoomStep userId acc a).2 = acc.2 ++ ex := by
  unfold disconnectRoomStep
  dsimp only
  split
  · exact ⟨_, rfl⟩
  · split
    · exact ⟨_, rfl⟩
    · split
      · exact ⟨_, rfl⟩
      · split
        · exact ⟨_, by rw [List.append_assoc]⟩
        · exact ⟨_, rfl⟩

theorem foldl_trace_append (userId : String) :
    ∀ (l : List Room) (acc : ServerState × List Action),
      ∃ ex, (l.foldl (disconnectRoomStep userId) acc).2 = acc.2 ++ ex
  | [], acc => ⟨[], by simp⟩
  | a :: l, acc => by
    obtain ⟨e1, h1⟩ := disconnectRoomStep_trace userId acc a
    obtain ⟨e2, h2⟩ := foldl_trace_append userId l (disconnectRoomStep userId acc a)
    exact ⟨e1 ++ e2, by rw [List.foldl_cons, h2, h1, List.append_assoc]⟩

theorem countP_id_eq_one (l : List Room)
    (hnd : (l.map (fun x => x.id)).Nodup)
    (a : Room) (ha : a ∈ l) (X : String) (haX : (a.id == X) = true) :
    l.countP (fun x => x.id == X) = 1 := by
  obtain ⟨l1, l2, rfl⟩ := List.append_of_mem ha
  rw [List.map_append, List.map_cons] at hnd
  have hdisj := List.disjoint_of_nodup_append hnd
  have h2 := List.Nodup.of_append_right hnd
  have haid : a.id = X := by simpa using haX
  have hz1 : l1.countP (fun x => x.id == X) = 0 := by
    rw [List.countP_eq_zero]
    intro b hb hbX
    have hb' : b.id = X := by simpa using hbX
    exact hdisj (List.mem_map_of_mem _ hb)
      (by rw [hb', ← haid]; exact List.mem_cons_self _ _)
  have hz2 : l2.countP (fun x => x.id == X) = 0 := by
    rw [List.countP_eq_zero]
    intro b hb hbX
    have hb' : b.id = X := by simpa using hbX
    have hnm : a.id ∉ l2.map (fun x => x.id) := (List.nodup_cons.1 h2).1
    exact hnm (by rw [haid, ← hb']; exact List.mem_map_of_mem _ hb)
  rw [List.countP_append, List.countP_cons, hz1, hz2, if_pos haX]

theorem countP_room_filter_not (msgs : List Message) (X : String) :
    (msgs.filter (fun m => !(m.room == X))).countP (fun m => m.room == X) = 0 := by
  rw [List.countP_eq_zero]
  intro m hm hmX
  have h := (List.mem_filter.1 hm).2
  rw [hmX] at h
  simp at h

theorem no_id_after_delete (l : List Room) (X : String)
    (h : l.countP (fun x => x.id == X) = 1) :
    ∀ x ∈ deleteFirst (fun x => x.id == X) l, x.id ≠ X := by
  have h0 : (deleteFirst (fun x => x.id == X) l).countP (fun x => x.id == X) = 0 := by
    rw [countP_deleteFirst_self, h]
  intro x hx hxX
  exact List.countP_eq_zero.1 h0 x hx (by simp [hxX])

/-- C2: admin departure always dismisses the room, regardless of how many
members remain. For `leave-room` by the admin of an existing room the handler
produces exactly the trace `room-dismissed` broadcast to the room's channel
followed by the deletion of the room and of every message referencing it,
and the resulting store contains neither the room nor any of its messages.
For a `disconnect` whose mapped user is the admin of a room containing them,
the resulting store likewise contains neither that room nor its messages, and
the trace contains the `room-dismissed` broadcast immediately followed by the
two deletions. -/
theorem adminDeparture_dismissal (s : ServerState) (sid roomId userId : String) :
    (∀ room : Room, isValidObjectId userId = true → isValidObjectId roomId = true →
      findRoom s roomId = some room → room.admin = userId →
      (s.rooms.map (fun x => x.id)).Nodup →
      (leaveRoom s sid roomId userId =
        ({ s with rooms := deleteFirst (fun x => x.id == roomId) s.rooms,
                  messages := s.messages.filter (fun m => !(m.room == roomId)) },
         [.emit (.toRoom roomId) .roomDismissed,
          .deleteRoomById roomId, .deleteMessages roomId]) ∧
       (∀ x ∈ (leaveRoom s sid roomId userId).1.rooms, x.id ≠ roomId) ∧
       (∀ m ∈ (leaveRoom s sid roomId userId).1.messages, m.room ≠ roomId))) ∧
    (∀ r : Room, mapGet s.socketMap sid = some userId → r ∈ s.rooms →
      userId ∈ r.users.map (fun u => u.id) → r.admin = userId →
      (s.rooms.map (fun x => x.id)).Nodup →
      ((∀ x ∈ (disconnect s sid).1.rooms, x.id ≠ r.id) ∧
       (∀ m ∈ (disconnect s sid).1.messages, m.room ≠ r.id) ∧
       (∃ pre post, (disconnect s sid).2 =
         pre ++ [.emit (.toRoom r.id) .roomDismissed,
                 .deleteRoomById r.id, .deleteMessages r.id] ++ post))) := by
  constructor
  · intro room hvu hvr hfind hradmin hnd
    have hadm' : (room.admin == userId) = true := by simp [hradmin]
    have hpfind := List.find?_some hfind
    have hcnt : s.rooms.countP (fun x => x.id == roomId) = 1 :=
      countP_id_eq_one s.rooms hnd room (List.mem_of_find?_eq_some hfind) roomId
        hpfind
    have hlv : leaveRoom s sid roomId userId =
        ({ s with rooms := deleteFirst (fun x => x.id == roomId) s.rooms,
                  messages := s.messages.filter (fun m => !(m.room == roomId)) },
         [.emit (.toRoom roomId) .roomDismissed,
          .deleteRoomById roomId, .deleteMessages roomId]) := by
      simp only [leaveRoom, hvu, hvr, hfind, Bool.not_true]
      rw [if_neg (by decide : ¬(false = true)),
         if_neg (by decide : ¬(false = true)), if_pos hadm']
    refine ⟨hlv, ?_, ?_⟩
    · rw [hlv]
      exact no_id_after_delete s.rooms roomId hcnt
    · rw [hlv]
      intro m hm hmr
      have hp := (List.mem_filter.1 hm).2
      rw [hmr] at hp
      simp at hp
  · intro r hmg hr huser hradmin hnd
    have hdisc : disconnect s sid =
        (s.rooms.filter (fun x => x.users.any (fun u => u.id == userId))).foldl
          (disconnectRoomStep userId)
          ({ s with socketMap := mapDelete s.socketMap sid }, []) := by
      unfold disconnect
      rw [hmg]
    have hany : (r.users.any (fun u => u.id == userId)) = true := by
      rcases List.mem_map.1 huser with ⟨x, hx, hxid⟩
      exact List.any_eq_true.2 ⟨x, hx, by simp [hxid]⟩
    have hrin : r ∈ s.rooms.filter (fun x => x.users.any (fun u => u.id == userId)) :=
      List.mem_filter.2 ⟨hr, hany⟩
    obtain ⟨l1, l2, hsplit⟩ := List.append_of_mem hrin
    have hndf : ((s.rooms.filter
        (fun x => x.users.any (fun u => u.id == userId))).map
          (fun x => x.id)).Nodup :=
      ((List.filter_sublist _).map _).nodup hnd
    rw [hsplit, List.map_append, List.map_cons] at hndf
    have hdisj := List.disjoint_of_nodup_append hndf
    have hl2nd := List.Nodup.of_append_right hndf
    have hne1 : ∀ a ∈ l1, a.id ≠ r.id := by
      intro a ha he
      exact hdisj (List.mem_map_of_mem _ ha)
        (by rw [he]; exact List.mem_cons_self _ _)
    have hne2 : ∀ a ∈ l2, a.id ≠ r.id := by
      intro a ha he
      exact (List.nodup_cons.1 hl2nd).1
        (by rw [← he]; exact List.mem_map_of_mem _ ha)
    have hfold : (s.rooms.filter
        (fun x => x.users.any (fun u => u.id == userId))).foldl
          (disconnectRoomStep userId)
          ({ s with socketMap := mapDelete s.socketMap sid }, []) =
        l2.foldl (disconnectRoomStep userId)
          (disconnectRoomStep userId
            (l1.foldl (disconnectRoomStep userId)
              ({ s with socketMap := mapDelete s.socketMap sid }, [])) r) := by
      rw [hsplit, List.foldl_append, List.foldl_cons]
    have hcnt0 : (({ s with socketMap := mapDelete s.socketMap sid },
        ([] : List Action)) : ServerState × List Action).1.rooms.countP
          (fun x => x.id == r.id) = 1 :=
      countP_id_eq_one s.rooms hnd r hr r.id (by simp)
    have h1 : ((l1.foldl (disconnectRoomStep userId)
        ({ s with socketMap := mapDelete s.socketMap sid }, [])).1.rooms.countP
          (fun x => x.id == r.id)) = 1 :=
      foldl_inv (disconnectRoomStep userId)
        (fun acc => acc.1.rooms.countP (fun x => x.id == r.id) = 1) l1 _ hcnt0
        (fun b a ha hb => by
          dsimp only at hb ⊢
          rw [disconnectRoomStep_countP_rooms userId r.id b a (hne1 a ha)]
          exact hb)
    have hadm'' : (r.admin == userId) = true := by simp [hradmin]
    have hstep2 := disconnectRoomStep_admin userId
      (l1.foldl (disconnectRoomStep userId)
        ({ s with socketMap := mapDelete s.socketMap sid }, [])) r hadm''
    have h2rooms : ((disconnectRoomStep userId
        (l1.foldl (disconnectRoomStep userId)
          ({ s with socketMap := mapDelete s.socketMap sid }, [])) r).1.rooms.countP
            (fun x => x.id == r.id)) = 0 := by
      rw [hstep2]
      show ((deleteFirst (fun x : Room => x.id == r.id)
        (l1.foldl (disconnectRoomStep userId)
          ({ s with socketMap := mapDelete s.socketMap sid },
           ([] : List Action))).1.rooms).countP
            (fun x : Room => x.id == r.id)) = 0
      rw [countP_deleteFirst_self, h1]
    have h2msgs : ((disconnectRoomStep userId
        (l1.foldl (disconnectRoomStep userId)
          ({ s with socketMap := mapDelete s.socketMap sid }, [])) r).1.messages.countP
            (fun m => m.room == r.id)) = 0 := by
      rw [hstep2]
      exact countP_room_filter_not _ r.id
    have h3 := foldl_inv (disconnectRoomStep userId)
      (fun acc => acc.1.rooms.countP (fun x => x.id == r.id) = 0 ∧
        acc.1.messages.countP (fun m => m.room == r.id) = 0)
      l2 _ ⟨h2rooms, h2msgs⟩
      (fun b a ha hb => by
        dsimp only at hb ⊢
        refine ⟨?_, ?_⟩
        · rw [disconnectRoomStep_countP_rooms userId r.id b a (hne2 a ha)]
          exact hb.1
        · exact Nat.le_antisymm
            (hb.2 ▸ disconnectRoomStep_countP_msgs userId r.id b a)
            (Nat.zero_le _))
    obtain ⟨h3a, h3b⟩ := h3
    obtain ⟨ex, hex⟩ := foldl_trace_append userId l2
      (disconnectRoomStep userId
        (l1.foldl (disconnectRoomStep userId)
          ({ s with socketMap := mapDelete s.socketMap sid }, [])) r)
    refine ⟨?_, ?_, ?_⟩
    · intro x hx hxid
      rw [hdisc, hfold] at hx
      exact List.countP_eq_zero.1 h3a x hx (by simp [hxid])
    · intro m hm hmr
      rw [hdisc, hfold] at hm
      exact List.countP_eq_zero.1 h3b m hm (by simp [hmr])
    · refine ⟨(l1.foldl (disconnectRoomStep userId)
        ({ s with socketMap := mapDelete s.socketMap sid }, [])).2, ex, ?_⟩
      rw [hdisc, hfold, hex, hstep2]

theorem adminDeparture_dismissal_witness :
    (isValidObjectId "adminAdmin00" = true ∧
     isValidObjectId "roomRoomRo00" = true ∧
     findRoom wState "roomRoomRo00" = some wRoom ∧
     wRoom.admin = "adminAdmin00" ∧
     (wState.rooms.map (fun x => x.id)).Nodup ∧
     mapGet wState.socketMap "sock1" = some "adminAdmin00" ∧
     wRoom ∈ wState.rooms ∧
     "adminAdmin00" ∈ wRoom.users.map (fun u => u.id)) ∧
    ((∀ x ∈ (leaveRoom wState "sock1" "roomRoomRo00" "adminAdmin00").1.rooms,
        x.id ≠ "roomRoomRo00") ∧
     (∀ m ∈ (leaveRoom wState "sock1" "roomRoomRo00" "adminAdmin00").1.messages,
        m.room ≠ "roomRoomRo00")) ∧
    ((∀ x ∈ (disconnect wState "sock1").1.rooms, x.id ≠ wRoom.id) ∧
     (∃ pre post, (disconnect wState "sock1").2 =
        pre ++ [.emit (.toRoom wRoom.id) .roomDismissed,
                .deleteRoomById wRoom.id, .deleteMessages wRoom.id] ++ post)) :=
  ⟨⟨by decide, by decide, by decide, by decide, by decide, by decide, by decide,
    by decide⟩,
   (let h := (adminDeparture_dismissal wState "sock1" "roomRoomRo00"
       "adminAdmin00").1 wRoom (by decide) (by decide) (by decide) (by decide)
       (by decide);
    ⟨h.2.1, h.2.2⟩),
   (let h := (adminDeparture_dismissal wState "sock1" "roomRoomRo00"
       "adminAdmin00").2 wRoom (by decide) (by decide) (by decide) (by decide)
       (by decide);
    ⟨h.1, h.2.2⟩)⟩

end WatchParty
